import Mathlib

/-!
# PublicHFT: market-data gateway and SPSC queue

A shallow embedding of `src/SPSCQueue/SPSCQueue.hpp`, of the bootstrap, the read path
and the subscription callback of `src/BookBuilder/BookBuilderGateway.cpp`, and of the
pending-ciphertext buffer of `src/OrderManager/OrderManagerUtils.hpp`, with the
properties of the specification proved over it.

Conventions.
* `size_t` values are natural numbers; `writeIdx + 1` and `readIdx + 1` are
  reduced modulo `SIZE_T_RANGE = 2 ^ 64`, as unsigned arithmetic does.
* `std::vector<T>` is a `List T`; an access outside the vector is undefined
  behaviour in the source and is the result `none` here.
* Each `push` / `pop` call is one atomic step (the memory orders of the
  atomics are not part of this embedding).
-/

namespace PublicHFT

/-! ## Definitions: `SPSCQueue` -/

/-- Number of values of the type `size_t` (64-bit target). -/
def SIZE_T_RANGE : Nat := 2 ^ 64

/-- The fields of `struct SPSCQueue<T>`, in declaration order. -/
structure SPSCQueue (T : Type) where
  data_ : List T
  readIdx_ : Nat
  writeIdxCached_ : Nat
  writeIdx_ : Nat
  readIdxCached_ : Nat
deriving DecidableEq, Repr

namespace SPSCQueue

variable {T : Type}

/-- The constructor `SPSCQueue(size_t capacity)`: `data_.resize(capacity)` on the empty
vector gives `capacity` value-initialised slots; the four indices start at 0. -/
def construct [Inhabited T] (capacity : Nat) : SPSCQueue T :=
  { data_ := List.replicate capacity default
    readIdx_ := 0
    writeIdxCached_ := 0
    writeIdx_ := 0
    readIdxCached_ := 0 }

/-- The tail of `push`: `data_[writeIdx] = val; writeIdx_.store(nextWriteIdx); return true`.
Writing outside `data_` is undefined behaviour: `none`. -/
def pushStore (q : SPSCQueue T) (writeIdx nextWriteIdx : Nat) (val : T) :
    Option (Bool × SPSCQueue T) :=
  if writeIdx < q.data_.length then
    some (true, { q with data_ := q.data_.set writeIdx val, writeIdx_ := nextWriteIdx })
  else none

/-- The method `bool push(T val)`: the result is the returned flag and the queue after
the call. -/
def push (q : SPSCQueue T) (val : T) : Option (Bool × SPSCQueue T) :=
  let writeIdx := q.writeIdx_
  let nextWriteIdx0 := (writeIdx + 1) % SIZE_T_RANGE
  let nextWriteIdx := if nextWriteIdx0 = q.data_.length then 0 else nextWriteIdx0
  if nextWriteIdx = q.readIdxCached_ then
    let q1 := { q with readIdxCached_ := q.readIdx_ }
    if nextWriteIdx = q1.readIdxCached_ then some (false, q1)
    else pushStore q1 writeIdx nextWriteIdx val
  else pushStore q writeIdx nextWriteIdx val

/-- The tail of `pop`: `val = data_[readIdx]`, advance and store the read index,
`return true`. Reading outside `data_` is undefined behaviour: `none`. -/
def popLoad (q : SPSCQueue T) (readIdx : Nat) : Option (Bool × T × SPSCQueue T) :=
  match q.data_[readIdx]? with
  | none => none
  | some val =>
    let nextReadIdx0 := (readIdx + 1) % SIZE_T_RANGE
    let nextReadIdx := if nextReadIdx0 = q.data_.length then 0 else nextReadIdx0
    some (true, val, { q with readIdx_ := nextReadIdx })

/-- The method `bool pop(T &val)`: `val` is the caller's variable before the call; the
result is the returned flag, the caller's variable after the call and the queue after
the call. -/
def pop (q : SPSCQueue T) (val : T) : Option (Bool × T × SPSCQueue T) :=
  let readIdx := q.readIdx_
  if readIdx = q.writeIdxCached_ then
    let q1 := { q with writeIdxCached_ := q.writeIdx_ }
    if readIdx = q1.writeIdxCached_ then some (false, val, q1)
    else popLoad q1 readIdx
  else popLoad q readIdx

end SPSCQueue

/-- One whole call on the queue: `push(val)`, or `pop(val)` with the content of the
caller's variable before the call. -/
inductive QueueCall (T : Type) where
  | push (val : T)
  | pop (val : T)
deriving DecidableEq, Repr

/-- A queue together with the record of what its calls did: the values of the pushes
that returned true and the values handed out by the pops that returned true, both in
call order. -/
structure History (T : Type) where
  queue : SPSCQueue T
  pushed : List T
  popped : List T
deriving DecidableEq, Repr

/-- Perform one call and record its outcome. -/
def History.step {T : Type} (h : History T) : QueueCall T → Option (History T)
  | .push v =>
    match h.queue.push v with
    | none => none
    | some (true, q) => some { queue := q, pushed := h.pushed ++ [v], popped := h.popped }
    | some (false, q) => some { queue := q, pushed := h.pushed, popped := h.popped }
  | .pop v0 =>
    match h.queue.pop v0 with
    | none => none
    | some (true, v, q) => some { queue := q, pushed := h.pushed, popped := h.popped ++ [v] }
    | some (false, _, q) => some { queue := q, pushed := h.pushed, popped := h.popped }

/-- Perform a sequence of calls, left to right. -/
def History.run {T : Type} (h : History T) (calls : List (QueueCall T)) : Option (History T) :=
  calls.foldlM History.step h

/-- A sequence of calls applied to a freshly constructed queue of the given capacity. -/
def runCalls {T : Type} [Inhabited T] (capacity : Nat) (calls : List (QueueCall T)) :
    Option (History T) :=
  History.run { queue := SPSCQueue.construct capacity, pushed := [], popped := [] } calls

/-- The states a queue of the given capacity can be in: the constructed one, and every
state a `push` or `pop` call leaves behind. -/
inductive Reachable {T : Type} [Inhabited T] (capacity : Nat) : SPSCQueue T → Prop
  | construct : Reachable capacity (SPSCQueue.construct capacity)
  | push {q q1 : SPSCQueue T} {v : T} {b : Bool} :
      Reachable capacity q → q.push v = some (b, q1) → Reachable capacity q1
  | pop {q q1 : SPSCQueue T} {a v : T} {b : Bool} :
      Reachable capacity q → q.pop a = some (b, v, q1) → Reachable capacity q1

/-- The link between a queue state and the record of its calls. `rc` and `pc` are the
numbers of pops and pushes that had happened when the producer last loaded the read
index and the consumer last loaded the write index. -/
structure Inv {T : Type} (C : Nat) (q : SPSCQueue T) (pushed popped : List T)
    (rc pc : Nat) : Prop where
  size : q.data_.length = C
  pop_le : popped.length ≤ pushed.length
  room : pushed.length ≤ popped.length + (C - 1)
  widx : q.writeIdx_ = pushed.length % C
  ridx : q.readIdx_ = popped.length % C
  rcidx : q.readIdxCached_ = rc % C
  rc_le : rc ≤ popped.length
  rc_room : pushed.length ≤ rc + (C - 1)
  wcidx : q.writeIdxCached_ = pc % C
  pc_ge : popped.length ≤ pc
  pc_le : pc ≤ pushed.length
  slots : ∀ i, popped.length ≤ i → i < pushed.length → q.data_[i % C]? = pushed[i]?
  handed : popped = pushed.take popped.length

/-! ## Definitions: build configuration and subscription frame
(`src/BookBuilder/BookBuilderGateway.cpp`, lines 14-38 and 91-151) -/

/-- The macro `CPU_CORE_INDEX_FOR_BOOK_BUILDER_GATEWAY_THREAD`. -/
def CPU_CORE_INDEX_FOR_BOOK_BUILDER_GATEWAY_THREAD : Nat := 1

/-- The macro `CPU_CORE_INDEX_FOR_SQ_POLL_THREAD`. -/
def CPU_CORE_INDEX_FOR_SQ_POLL_THREAD : Nat := 0

/-- The macro `NUMBER_OF_IO_URING_SQ_ENTRIES`. -/
def NUMBER_OF_IO_URING_SQ_ENTRIES : Nat := 256

/-- The macro `WEBSOCKET_CLIENT_RX_BUFFER_SIZE`. -/
def WEBSOCKET_CLIENT_RX_BUFFER_SIZE : Nat := 16378

/-- The preprocessor symbols that select venue and portfolio; `true` means defined. -/
structure BuildFlags where
  USE_BITMEX_EXCHANGE : Bool
  USE_BITMEX_MOCK_EXCHANGE : Bool
  USE_BITMEX_TESTNET_EXCHANGE : Bool
  USE_KRAKEN_EXCHANGE : Bool
  USE_KRAKEN_MOCK_EXCHANGE : Bool
  USE_PORTFOLIO_122 : Bool
  USE_PORTFOLIO_92 : Bool
  USE_PORTFOLIO_50 : Bool
  USE_PORTFOLIO_3 : Bool
deriving DecidableEq, Repr

/-- The list `currencyPairs_` of the BitMEX builds (line 23). -/
def currencyPairsBitmex : List String :=
  ["XBTUSDT", "XBTETH", "ETHUSDT"]

/-- The list `currencyPairs_` under `USE_PORTFOLIO_122` (line 27). -/
def currencyPairsPortfolio122 : List String :=
  ["KSM/EUR", "KSM/BTC", "KSM/DOT", "KSM/GBP", "KSM/ETH", "KSM/USD", "GBP/USD", "BTC/CAD",
   "BTC/EUR", "BTC/AUD", "BTC/JPY", "BTC/GBP", "BTC/CHF", "BTC/USDT", "BTC/USD", "BTC/USDC",
   "LTC/EUR", "LTC/BTC", "LTC/AUD", "LTC/JPY", "LTC/GBP", "LTC/ETH", "LTC/USDT", "LTC/USD",
   "SOL/EUR", "SOL/BTC", "SOL/GBP", "SOL/ETH", "SOL/USDT", "SOL/USD", "DOT/EUR", "DOT/BTC",
   "DOT/JPY", "DOT/GBP", "DOT/ETH", "DOT/USDT", "DOT/USD", "ETH/CAD", "ETH/EUR", "ETH/BTC",
   "ETH/AUD", "ETH/JPY", "ETH/GBP", "ETH/CHF", "ETH/USDT", "ETH/USD", "ETH/USDC", "LINK/EUR",
   "LINK/BTC", "LINK/AUD", "LINK/JPY", "LINK/GBP", "LINK/ETH", "LINK/USDT", "LINK/USD",
   "USDC/CAD", "USDC/EUR", "USDC/AUD", "USDC/GBP", "USDC/CHF", "USDC/USDT", "USDC/USD",
   "ADA/EUR", "ADA/BTC", "ADA/AUD", "ADA/GBP", "ADA/ETH", "ADA/USDT", "ADA/USD", "ATOM/EUR",
   "ATOM/BTC", "ATOM/GBP", "ATOM/ETH", "ATOM/USDT", "ATOM/USD", "USDT/EUR", "USDT/AUD",
   "USDT/JPY", "USDT/GBP", "USDT/CHF", "USDT/USD", "USDT/CAD", "AUD/JPY", "AUD/USD", "XRP/CAD",
   "XRP/EUR", "XRP/BTC", "XRP/AUD", "XRP/GBP", "XRP/ETH", "XRP/USDT", "XRP/USD", "EUR/CAD",
   "EUR/AUD", "EUR/JPY", "EUR/GBP", "EUR/CHF", "EUR/USD", "BCH/EUR", "BCH/BTC", "BCH/AUD",
   "BCH/JPY", "BCH/GBP", "BCH/ETH", "BCH/USDT", "BCH/USD", "USD/CHF", "USD/JPY", "USD/CAD",
   "ALGO/EUR", "ALGO/BTC", "ALGO/GBP", "ALGO/ETH", "ALGO/USDT", "ALGO/USD"]

/-- The list `currencyPairs_` under `USE_PORTFOLIO_92` (line 30). -/
def currencyPairsPortfolio92 : List String :=
  ["BCH/USD", "BCH/BTC", "BCH/EUR", "BCH/AUD", "BCH/GBP", "BCH/ETH", "BCH/USDT", "BCH/JPY",
   "BTC/USD", "BTC/EUR", "BTC/USDC", "BTC/AUD", "BTC/GBP", "BTC/CAD", "BTC/USDT", "BTC/JPY",
   "USD/CAD", "USD/JPY", "XRP/USD", "XRP/BTC", "XRP/EUR", "XRP/AUD", "XRP/GBP", "XRP/ETH",
   "XRP/CAD", "XRP/USDT", "EUR/USD", "EUR/AUD", "EUR/GBP", "EUR/CAD", "EUR/JPY", "LTC/USD",
   "LTC/EUR", "LTC/BTC", "LTC/AUD", "LTC/GBP", "LTC/ETH", "LTC/USDT", "LTC/JPY", "ETH/USD",
   "ETH/EUR", "ETH/BTC", "ETH/USDC", "ETH/AUD", "ETH/GBP", "ETH/CAD", "ETH/USDT", "ETH/JPY",
   "LINK/USD", "LINK/BTC", "LINK/EUR", "LINK/AUD", "LINK/GBP", "LINK/ETH", "LINK/USDT",
   "LINK/JPY", "ADA/USD", "ADA/BTC", "ADA/EUR", "ADA/AUD", "ADA/GBP", "ADA/ETH", "ADA/USDT",
   "USDC/USD", "USDC/EUR", "USDC/AUD", "USDC/GBP", "USDC/CAD", "USDC/USDT", "GBP/USD",
   "DOT/USD", "DOT/BTC", "DOT/EUR", "DOT/GBP", "DOT/ETH", "DOT/USDT", "DOT/JPY", "USDT/USD",
   "USDT/EUR", "USDT/AUD", "USDT/GBP", "USDT/CAD", "USDT/JPY", "AUD/USD", "AUD/JPY"]

/-- The list `currencyPairs_` under `USE_PORTFOLIO_50` (line 33). -/
def currencyPairsPortfolio50 : List String :=
  ["BCH/JPY", "BCH/ETH", "BCH/GBP", "BCH/AUD", "BCH/BTC", "BCH/USDT", "BCH/EUR", "BCH/USD",
   "USDT/JPY", "USDT/GBP", "USDT/AUD", "USDT/EUR", "USDT/USD", "BTC/JPY", "BTC/GBP", "BTC/AUD",
   "BTC/USDT", "BTC/EUR", "BTC/USD", "EUR/GBP", "EUR/JPY", "EUR/AUD", "EUR/USD", "ETH/JPY",
   "ETH/EUR", "ETH/AUD", "ETH/BTC", "ETH/USDT", "ETH/GBP", "ETH/USD", "USD/JPY", "LINK/JPY",
   "LINK/ETH", "LINK/EUR", "LINK/AUD", "LINK/BTC", "LINK/USDT", "LINK/GBP", "LINK/USD",
   "LTC/JPY", "LTC/ETH", "LTC/GBP", "LTC/AUD", "LTC/BTC", "LTC/USDT", "LTC/EUR", "LTC/USD",
   "GBP/USD", "AUD/JPY", "AUD/USD"]

/-- The list `currencyPairs_` under `USE_PORTFOLIO_3` (line 36). -/
def currencyPairsPortfolio3 : List String :=
  ["USDT/USD", "SOL/USDT", "SOL/USD"]

/-- The `#if` / `#elif` chain of lines 21-38, shared by `NUMBER_OF_CONNECTIONS` and
`currencyPairs_`: the pair the selected branch defines, `none` when no branch is taken
and neither name is defined. -/
def connectionConfig (b : BuildFlags) : Option (Nat × List String) :=
  if b.USE_BITMEX_EXCHANGE || b.USE_BITMEX_MOCK_EXCHANGE || b.USE_BITMEX_TESTNET_EXCHANGE then
    some (3, currencyPairsBitmex)
  else if b.USE_KRAKEN_EXCHANGE || b.USE_KRAKEN_MOCK_EXCHANGE then
    if b.USE_PORTFOLIO_122 then some (122, currencyPairsPortfolio122)
    else if b.USE_PORTFOLIO_92 then some (92, currencyPairsPortfolio92)
    else if b.USE_PORTFOLIO_50 then some (50, currencyPairsPortfolio50)
    else if b.USE_PORTFOLIO_3 then some (3, currencyPairsPortfolio3)
    else none
  else none

/-- The macro `NUMBER_OF_CONNECTIONS` of the build. -/
def NUMBER_OF_CONNECTIONS (b : BuildFlags) : Option Nat :=
  (connectionConfig b).map Prod.fst

/-- The file-scope vector `currencyPairs_` of the build. -/
def currencyPairs_ (b : BuildFlags) : Option (List String) :=
  (connectionConfig b).map Prod.snd

/-- The first raw string literal of the Kraken subscription (lines 113-119). -/
def krakenSubscriptionHead : String :=
  "\x7b\n                                                \"method\": \"subscribe\",\n                                                \"params\": \x7b\n                                                    \"channel\": \"book\",\n                                                    \"depth\": 10,\n                                                    \"snapshot\": true,\n                                                    \"symbol\": ["

/-- The second raw string literal of the Kraken subscription (lines 121-125). -/
def krakenSubscriptionTail : String :=
  "]\n                                        \x7d,\n                                        \"req_id\": 1234567890\n                                        \x7d\n                                    "

/-- The string `subscriptionMessage` built at lines 109-126, for a build without mock
venue. `none`: the build declares no such string (neither branch is compiled), or
`currencyPairs_[connectionIdx]` is outside the vector. -/
def subscriptionMessage (b : BuildFlags) (connectionIdx : Nat) : Option String :=
  if b.USE_BITMEX_EXCHANGE || b.USE_BITMEX_TESTNET_EXCHANGE then
    match currencyPairs_ b with
    | none => none
    | some pairs =>
      match pairs[connectionIdx]? with
      | none => none
      | some currencyPair =>
        some ("\x7b\"op\":\"subscribe\",\"args\":[\"orderBookL2_25:" ++ currencyPair ++ "\"]\x7d")
  else if b.USE_KRAKEN_EXCHANGE then
    match currencyPairs_ b with
    | none => none
    | some pairs =>
      match pairs[connectionIdx]? with
      | none => none
      | some currencyPair =>
        some ((krakenSubscriptionHead ++ ("\"" ++ currencyPair ++ "\"")) ++ krakenSubscriptionTail)
  else none

/-- The values of `enum lws_callback_reasons` the callback distinguishes. -/
inductive lws_callback_reasons where
  | LWS_CALLBACK_CLIENT_CONNECTION_ERROR
  | LWS_CALLBACK_CLIENT_ESTABLISHED
  | LWS_CALLBACK_CLIENT_CLOSED
  | other
deriving DecidableEq, Repr

/-- The file-scope arrays the callback writes: `clientWsis` (`true`: non-null) and
`interrupted`. -/
structure CallbackState where
  clientWsis : List Bool
  interrupted : List Int
deriving DecidableEq, Repr

/-- What one callback invocation did: the arrays after it, and the payloads it handed to
`lws_write` with `LWS_WRITE_TEXT`, in order. -/
structure CallbackResult where
  state : CallbackState
  textFrames : List String
deriving DecidableEq, Repr

/-- The function `bookBuilderLwsCallback`. `none`: the build does not compile, or an array
is indexed outside its bounds (`clientWsis` and `interrupted` have
`NUMBER_OF_CONNECTIONS` elements). -/
def bookBuilderLwsCallback (b : BuildFlags) (st : CallbackState) (connectionIdx : Nat)
    (reason : lws_callback_reasons) : Option CallbackResult :=
  match NUMBER_OF_CONNECTIONS b with
  | none => none
  | some n =>
    match reason with
    | .LWS_CALLBACK_CLIENT_CONNECTION_ERROR =>
      if connectionIdx < n then
        some { state := { st with clientWsis := st.clientWsis.set connectionIdx false },
               textFrames := [] }
      else none
    | .LWS_CALLBACK_CLIENT_ESTABLISHED =>
      if !b.USE_KRAKEN_MOCK_EXCHANGE && !b.USE_BITMEX_MOCK_EXCHANGE then
        match subscriptionMessage b connectionIdx with
        | none => none
        | some subscriptionMessage =>
          if connectionIdx < n then
            some { state := { st with interrupted := st.interrupted.set connectionIdx 1 },
                   textFrames := [subscriptionMessage] }
          else none
      else if connectionIdx < n then
        some { state := { st with interrupted := st.interrupted.set connectionIdx 1 },
               textFrames := [] }
      else none
    | .LWS_CALLBACK_CLIENT_CLOSED =>
      if connectionIdx < n then
        some { state := { st with clientWsis := st.clientWsis.set connectionIdx false },
               textFrames := [] }
      else none
    | .other => some { state := st, textFrames := [] }

/-! ## Definitions: the read cycle `handleSocketEvent`
(`src/BookBuilder/BookBuilderGateway.cpp`, lines 49-63 and 158-233)

The calls into libev, liburing, OpenSSL and the clock are answered by a `CycleWorld`;
the calls the cycle makes are recorded as `Effect`s. -/

/-- A `char` of a buffer. -/
abbrev Byte := Nat

/-- A `std::chrono::system_clock::time_point`: nanoseconds since the UNIX epoch. -/
abbrev TimePoint := Int

/-- The libev event bit `EV_READ`. -/
def EV_READ : Nat := 1

/-- The Linux socket level `SOL_SOCKET`. -/
def SOL_SOCKET : Int := 1

/-- The Linux control-message type `SCM_TIMESTAMP`. -/
def SCM_TIMESTAMP : Int := 29

/-- Reduction of an integer to the range of a signed 64-bit `long`. -/
def wrapInt64 (x : Int) : Int := (x + 2 ^ 63) % 2 ^ 64 - 2 ^ 63

/-- Modelled from the spec: `struct BookBuilderGatewayToComponentQueueEntry` is declared in
`../OrderBook/OrderBook.hpp`, which is not among the sources. The fields are the six that
`handleSocketEvent` assigns (the spec's queue entry: plaintext bytes, plaintext length and
four timestamps); the byte array has `WEBSOCKET_CLIENT_RX_BUFFER_SIZE` elements, the
number the `memcpy` at line 220 copies into it. -/
structure BookBuilderGatewayToComponentQueueEntry where
  decryptedReadBuffer : List Byte
  decryptedBytesRead : Int
  marketUpdateSocketRxTimestamp : TimePoint
  marketUpdatePollTimestamp : TimePoint
  marketUpdateReadCompletionTimestamp : TimePoint
  marketUpdateDecryptionCompletionTimestamp : TimePoint
deriving DecidableEq, Repr

/-- A value-initialised queue entry, as `data_.resize(capacity)` creates them. -/
instance : Inhabited BookBuilderGatewayToComponentQueueEntry where
  default :=
    { decryptedReadBuffer := List.replicate WEBSOCKET_CLIENT_RX_BUFFER_SIZE 0
      decryptedBytesRead := 0
      marketUpdateSocketRxTimestamp := 0
      marketUpdatePollTimestamp := 0
      marketUpdateReadCompletionTimestamp := 0
      marketUpdateDecryptionCompletionTimestamp := 0 }

/-- The first control message held in `ctrlBuf`: the `cmsghdr` fields the cycle reads and
the `struct timeval` that `CMSG_DATA` points at. -/
structure ControlMessage where
  cmsg_level : Int
  cmsg_type : Int
  tv_sec : Int
  tv_usec : Int
deriving DecidableEq, Repr

/-- The data members of `struct WebSocketClientEvContext` that the read cycle uses. -/
structure WebSocketClientEvContext where
  sockfd : Int
  connectionIdx : Nat
  undecryptedReadBuffer : List Byte
  undecryptedReadBufferSize : Nat
  decryptedReadBuffer : List Byte
  decryptedReadBufferSize : Nat
  tv_sec : Int
  tv_usec : Int
  ctrlBuf : ControlMessage
deriving DecidableEq, Repr

/-- The context `new WebSocketClientEvContext()` creates for a connection (lines 370-372):
zeroed arrays, the two size members set to the array sizes. -/
def WebSocketClientEvContext.create (sockfd : Int) (connectionIdx : Nat) :
    WebSocketClientEvContext :=
  { sockfd := sockfd
    connectionIdx := connectionIdx
    undecryptedReadBuffer := List.replicate WEBSOCKET_CLIENT_RX_BUFFER_SIZE 0
    undecryptedReadBufferSize := WEBSOCKET_CLIENT_RX_BUFFER_SIZE
    decryptedReadBuffer := List.replicate WEBSOCKET_CLIENT_RX_BUFFER_SIZE 0
    decryptedReadBufferSize := WEBSOCKET_CLIENT_RX_BUFFER_SIZE
    tv_sec := 0
    tv_usec := 0
    ctrlBuf := { cmsg_level := 0, cmsg_type := 0, tv_sec := 0, tv_usec := 0 } }

/-- The shape every context has: both arrays have `WEBSOCKET_CLIENT_RX_BUFFER_SIZE`
elements and the size members hold that number. -/
def WebSocketClientEvContext.WellFormed (w : WebSocketClientEvContext) : Prop :=
  w.undecryptedReadBuffer.length = WEBSOCKET_CLIENT_RX_BUFFER_SIZE ∧
  w.undecryptedReadBufferSize = WEBSOCKET_CLIENT_RX_BUFFER_SIZE ∧
  w.decryptedReadBuffer.length = WEBSOCKET_CLIENT_RX_BUFFER_SIZE ∧
  w.decryptedReadBufferSize = WEBSOCKET_CLIENT_RX_BUFFER_SIZE

/-- What the environment answers during one invocation of `handleSocketEvent`. -/
structure CycleWorld where
  /-- the argument `revents` -/
  revents : Nat
  /-- the clock at line 165 -/
  pollNow : TimePoint
  /-- whether `io_uring_get_sqe` returned an entry -/
  sqeAvailable : Bool
  /-- the result of `io_uring_submit` -/
  submitRet : Int
  /-- the result of `io_uring_wait_cqe` -/
  waitRet : Int
  /-- the clock at line 186 -/
  readCompletionNow : TimePoint
  /-- the field `cqe->res` -/
  cqeRes : Int
  /-- the bytes the completed `recvmsg` placed at the start of `undecryptedReadBuffer` -/
  received : List Byte
  /-- the control message the completed `recvmsg` placed in `ctrlBuf`, if it placed one -/
  control : Option ControlMessage
  /-- the result of `BIO_write` -/
  bioWriteRet : Int
  /-- the result of `SSL_read` -/
  sslReadRet : Int
  /-- the bytes `SSL_read` placed at the start of `decryptedReadBuffer` -/
  plaintext : List Byte
  /-- the clock at line 202 -/
  decryptionNow : TimePoint
deriving DecidableEq, Repr

/-- The contract of `SSL_read(ssl, buf, num)`: a positive result is the number of bytes
placed in `buf`, at most `num`; otherwise nothing is placed. -/
def CycleWorld.SslReadContract (world : CycleWorld) (num : Nat) : Prop :=
  (0 < world.sslReadRet → (world.plaintext.length : Int) = world.sslReadRet ∧
      world.plaintext.length ≤ num) ∧
  (world.sslReadRet ≤ 0 → world.plaintext = [])

/-- The calls a read cycle makes on the ring, the TLS session and the queue. -/
inductive Effect where
  | io_uring_get_sqe
  | io_uring_queue_exit
  | io_uring_prep_recvmsg (fixedFile : Nat)
  | io_uring_submit
  | io_uring_wait_cqe
  | BIO_write (connectionIdx : Nat) (bytes : List Byte)
  | SSL_read (connectionIdx : Nat) (num : Nat)
  | io_uring_cqe_seen
  | push (entry : BookBuilderGatewayToComponentQueueEntry) (accepted : Bool)
deriving DecidableEq, Repr

/-- How an invocation ends: it returns; or the loop `while (!push(entry));` is still
refused when the bound on its iterations is used up; or an access is out of bounds. -/
inductive Outcome (α : Type) where
  | returned (a : α)
  | spinning
  | fault
deriving DecidableEq, Repr

/-- What a returned read cycle leaves behind. -/
structure CycleResult where
  effects : List Effect
  context : WebSocketClientEvContext
  queue : SPSCQueue BookBuilderGatewayToComponentQueueEntry
deriving DecidableEq, Repr

/-- Bytes written at the start of a fixed-size array. -/
def overwrite (buffer bytes : List Byte) : List Byte :=
  bytes.take buffer.length ++ buffer.drop bytes.length

/-- The call `memset(buffer, 0, size)`. -/
def memsetZero (buffer : List Byte) (size : Nat) : List Byte :=
  List.replicate (min size buffer.length) 0 ++ buffer.drop size

/-- Lines 207-217: the local `marketUpdateSocketRxTimestamp`, default-constructed (the
epoch) and set from the control message when it is a `SOL_SOCKET` / `SCM_TIMESTAMP` one:
`from_time_t(tv_sec)` plus `microseconds(tv_usec)`, in nanoseconds. -/
def socketRxTimestamp (cmsg : ControlMessage) : TimePoint :=
  if cmsg.cmsg_level = SOL_SOCKET ∧ cmsg.cmsg_type = SCM_TIMESTAMP then
    wrapInt64 (wrapInt64 (cmsg.tv_sec * 1000000000) + wrapInt64 (cmsg.tv_usec * 1000))
  else 0

/-- Line 227, `while (!bookBuilderGatewayToComponentQueue->push(queueEntry));`, with a
bound on the number of iterations. -/
def pushUntilAccepted (entry : BookBuilderGatewayToComponentQueueEntry) :
    Nat → SPSCQueue BookBuilderGatewayToComponentQueueEntry →
      Outcome (List Effect × SPSCQueue BookBuilderGatewayToComponentQueueEntry)
  | 0, _ => .spinning
  | fuel + 1, q =>
    match q.push entry with
    | none => .fault
    | some (true, q1) => .returned ([Effect.push entry true], q1)
    | some (false, q1) =>
      match pushUntilAccepted entry fuel q1 with
      | .returned (effects, q2) => .returned (Effect.push entry false :: effects, q2)
      | .spinning => .spinning
      | .fault => .fault

/-- The context once the `recvmsg` has completed: the received bytes are in
`undecryptedReadBuffer`, and `ctrlBuf` holds the control message of this completion, or
still what it held before when the completion carried none. -/
def afterRecvmsg (world : CycleWorld) (w : WebSocketClientEvContext) :
    WebSocketClientEvContext :=
  { w with undecryptedReadBuffer := overwrite w.undecryptedReadBuffer world.received
           ctrlBuf := world.control.getD w.ctrlBuf }

/-- Lines 219-225: the queue entry built from the context after `SSL_read` and the
instants of the cycle. -/
def makeQueueEntry (world : CycleWorld) (w : WebSocketClientEvContext) :
    BookBuilderGatewayToComponentQueueEntry :=
  { decryptedReadBuffer := w.decryptedReadBuffer.take w.decryptedReadBufferSize
    decryptedBytesRead := world.sslReadRet
    marketUpdateSocketRxTimestamp := socketRxTimestamp w.ctrlBuf
    marketUpdatePollTimestamp := world.pollNow
    marketUpdateReadCompletionTimestamp := world.readCompletionNow
    marketUpdateDecryptionCompletionTimestamp := world.decryptionNow }

/-- Lines 198-217: the context when the queue entry is built. `SSL_read` has placed its
bytes at the start of `decryptedReadBuffer`, and `tv` has been copied out of the control
message when that is a `SOL_SOCKET` / `SCM_TIMESTAMP` one. -/
def decryptedContext (world : CycleWorld) (w : WebSocketClientEvContext) :
    WebSocketClientEvContext :=
  let w1 := afterRecvmsg world w
  let w2 := { w1 with decryptedReadBuffer := overwrite w1.decryptedReadBuffer world.plaintext }
  if w2.ctrlBuf.cmsg_level = SOL_SOCKET ∧ w2.ctrlBuf.cmsg_type = SCM_TIMESTAMP then
    { w2 with tv_sec := w2.ctrlBuf.tv_sec, tv_usec := w2.ctrlBuf.tv_usec }
  else w2

/-- Lines 199-205: the calls between the completion and the push loop: `BIO_write` of
the first `cqe->res` bytes of `undecryptedReadBuffer` into `rbios[connectionIdx]`, one
`SSL_read` on `ssls[connectionIdx]` into `decryptedReadBuffer`, and `io_uring_cqe_seen`. -/
def decryptEffects (world : CycleWorld) (w : WebSocketClientEvContext) : List Effect :=
  let connectionIdx := w.connectionIdx
  let w1 := afterRecvmsg world w
  let undecryptedBytesRead := world.cqeRes
  [Effect.BIO_write connectionIdx (w1.undecryptedReadBuffer.take undecryptedBytesRead.toNat),
    Effect.SSL_read connectionIdx w1.decryptedReadBufferSize,
    Effect.io_uring_cqe_seen]

/-- Lines 229-230: the two `memset` calls that end a cycle. -/
def clearedContext (w : WebSocketClientEvContext) : WebSocketClientEvContext :=
  { w with
    undecryptedReadBuffer := memsetZero w.undecryptedReadBuffer w.undecryptedReadBufferSize
    decryptedReadBuffer := memsetZero w.decryptedReadBuffer w.decryptedReadBufferSize }

/-- Lines 198-230: the part of the cycle after a non-negative completion. -/
def decryptAndPublish (fuel : Nat) (world : CycleWorld) (w : WebSocketClientEvContext)
    (queue : SPSCQueue BookBuilderGatewayToComponentQueueEntry)
    (before : List Effect) : Outcome CycleResult :=
  let w3 := decryptedContext world w
  let queueEntry := makeQueueEntry world w3
  match pushUntilAccepted queueEntry fuel queue with
  | .returned (pushes, queue1) =>
    .returned
      { effects := before ++ decryptEffects world w ++ pushes
        context := clearedContext w3
        queue := queue1 }
  | .spinning => .spinning
  | .fault => .fault

/-- The calls on the ring that precede the completion check (lines 167-185). -/
def ringEffects (w : WebSocketClientEvContext) : List Effect :=
  [Effect.io_uring_get_sqe, Effect.io_uring_prep_recvmsg w.connectionIdx,
    Effect.io_uring_submit, Effect.io_uring_wait_cqe]

/-- The function `handleSocketEvent` for one watcher event. `fuel` bounds the iterations
of the push loop. -/
def handleSocketEvent (fuel : Nat) (world : CycleWorld) (w : WebSocketClientEvContext)
    (queue : SPSCQueue BookBuilderGatewayToComponentQueueEntry) : Outcome CycleResult :=
  let connectionIdx := w.connectionIdx
  if world.revents &&& EV_READ ≠ 0 then
    if !world.sqeAvailable then
      .returned
        { effects := [Effect.io_uring_get_sqe, Effect.io_uring_queue_exit]
          context := w, queue := queue }
    else if world.submitRet < 0 then
      .returned
        { effects := [Effect.io_uring_get_sqe, Effect.io_uring_prep_recvmsg connectionIdx,
            Effect.io_uring_submit, Effect.io_uring_queue_exit]
          context := w, queue := queue }
    else if world.waitRet < 0 then
      .returned { effects := ringEffects w, context := w, queue := queue }
    else if world.cqeRes < 0 then
      .returned { effects := ringEffects w, context := w, queue := queue }
    else decryptAndPublish fuel world w queue (ringEffects w)
  else .returned { effects := [], context := w, queue := queue }

/-- The world of a cycle in which `recvmsg` delivers 5 bytes with a kernel timestamp and
`SSL_read` then returns 0. -/
def zeroReadWorld : CycleWorld :=
  { revents := 1, pollNow := 100, sqeAvailable := true, submitRet := 1, waitRet := 0
    readCompletionNow := 200, cqeRes := 5, received := [1, 2, 3, 4, 5]
    control := some { cmsg_level := 1, cmsg_type := 29, tv_sec := 1700000000, tv_usec := 123456 }
    bioWriteRet := 5, sslReadRet := 0, plaintext := [], decryptionNow := 300 }

/-- The same cycle with `SSL_read` returning -1. -/
def failedReadWorld : CycleWorld := { zeroReadWorld with sslReadRet := -1 }

/-- The same cycle with `SSL_read` returning the three bytes 9, 8, 7. -/
def plainReadWorld : CycleWorld := { zeroReadWorld with sslReadRet := 3, plaintext := [9, 8, 7] }

/-- The same cycle with the completion reporting the error -11. -/
def failedRecvWorld : CycleWorld := { zeroReadWorld with cqeRes := -11, received := [] }

/-- The state after `push 5` on a fresh queue of capacity 2: the queue is full. -/
def fullQueue2 : SPSCQueue Nat :=
  { data_ := [5, 0], readIdx_ := 0, writeIdxCached_ := 0, writeIdx_ := 1, readIdxCached_ := 0 }

/-- The state after `push 5` then `pop` on a fresh queue of capacity 2: the queue is
empty again, with both indices at 1. -/
def drainedQueue2 : SPSCQueue Nat :=
  { data_ := [5, 0], readIdx_ := 1, writeIdxCached_ := 1, writeIdx_ := 1, readIdxCached_ := 0 }

/-- A production BitMEX build: only `USE_BITMEX_EXCHANGE` is defined. -/
def bitmexBuild : BuildFlags :=
  { USE_BITMEX_EXCHANGE := true, USE_BITMEX_MOCK_EXCHANGE := false
    USE_BITMEX_TESTNET_EXCHANGE := false, USE_KRAKEN_EXCHANGE := false
    USE_KRAKEN_MOCK_EXCHANGE := false, USE_PORTFOLIO_122 := false
    USE_PORTFOLIO_92 := false, USE_PORTFOLIO_50 := false, USE_PORTFOLIO_3 := false }

/-- Consecutive `push` calls with no call in between: the flags they return, in order,
and the queue after the last one. -/
def pushAll {T : Type} (q : SPSCQueue T) : List T → Option (List Bool × SPSCQueue T)
  | [] => some ([], q)
  | v :: vs =>
    match q.push v with
    | none => none
    | some (b, q1) =>
      match pushAll q1 vs with
      | none => none
      | some (bs, q2) => some (b :: bs, q2)

/-! ## Definitions: the bootstrap of `bookBuilderGateway`
(`src/BookBuilder/BookBuilderGateway.cpp`, lines 244-398)

The answers of the operating system and of the libraries are a `GatewayWorld`; the calls
the bootstrap makes are recorded as `GatewayEffect`s. -/

/-- The conversion of an `unsigned int` to `int`, as in
`int numCores = std::thread::hardware_concurrency();`. -/
def intOfUnsigned (u : Nat) : Int :=
  if u % 2 ^ 32 < 2 ^ 31 then ((u % 2 ^ 32 : Nat) : Int)
  else ((u % 2 ^ 32 : Nat) : Int) - 2 ^ 32

/-- How the wait for the established callback of one client ends (the loop of lines
349-351): the callback set `interrupted[m]`; or the connection failed and `clientWsis[m]`
is null; or neither ever happens. -/
inductive ConnectAnswer where
  | established
  | failed
  | pending
deriving DecidableEq, Repr

/-- What the environment answers during the bootstrap. -/
structure GatewayWorld where
  /-- the result of `std::thread::hardware_concurrency()` -/
  hardware_concurrency : Nat
  /-- the result of `geteuid()` -/
  geteuid : Nat
  /-- the result of `io_uring_queue_init` or `io_uring_queue_init_params` -/
  queueInitRet : Int
  /-- the field `ring.ring_fd` -/
  ring_fd : Int
  /-- the result of `write(orderManagerPipeEnd, ...)` -/
  pipeWriteRet : Int
  /-- whether `lws_create_context` returned a context -/
  contextCreated : Bool
  /-- per connection, how the wait for its established callback ends -/
  connect : List ConnectAnswer
  /-- per connection, the result of `setsockopt(..., SO_TIMESTAMP, ...)` -/
  setsockoptRet : List Int
  /-- the result of `io_uring_register_files` -/
  registerFilesRet : Int
deriving DecidableEq, Repr

/-- The calls of the bootstrap that reach outside the process. -/
inductive GatewayEffect where
  | setThreadAffinity (core : Nat)
  | io_uring_queue_init (entries : Nat)
  | io_uring_queue_init_params (entries : Nat) (sq_thread_cpu : Nat)
  | writePipe (ring_fd : Int)
  | lws_create_context
  | lws_client_connect_via_info (m : Nat)
  | setsockopt_SO_TIMESTAMP (m : Nat)
  | io_uring_register_files (count : Nat)
  | ev_io_start (connectionIdx : Nat)
  | ev_timer_start (seconds : Nat)
deriving DecidableEq, Repr

/-- How `bookBuilderGateway` goes on: it returns; it has entered the service loop
`while (true) ev_run(...)`; it waits for ever for a client to be established; or it uses
a null client handle. Each carries the calls made so far. -/
inductive GatewayOutcome where
  | returned (effects : List GatewayEffect)
  | serving (effects : List GatewayEffect)
  | connecting (effects : List GatewayEffect)
  | fault (effects : List GatewayEffect)
deriving DecidableEq, Repr

/-- The calls an outcome carries. -/
def GatewayOutcome.effects : GatewayOutcome → List GatewayEffect
  | .returned effects => effects
  | .serving effects => effects
  | .connecting effects => effects
  | .fault effects => effects

/-- Lines 344-361: the clients are connected one after the other. The result is the
outcome that ends the bootstrap here, or the calls made when all clients are set up. -/
def connectClients (world : GatewayWorld) :
    List Nat → List GatewayEffect → Except GatewayOutcome (List GatewayEffect)
  | [], effects => .ok effects
  | m :: rest, effects =>
    let effects1 := effects ++ [GatewayEffect.lws_client_connect_via_info m]
    match world.connect[m]?.getD ConnectAnswer.pending with
    | .pending => .error (.connecting effects1)
    | .failed => .error (.fault effects1)
    | .established =>
      let effects2 := effects1 ++ [GatewayEffect.setsockopt_SO_TIMESTAMP m]
      if world.setsockoptRet[m]?.getD 0 < 0 then .error (.returned effects2)
      else connectClients world rest effects2

/-- Lines 294-395: the bootstrap once the ring is set up. -/
def afterRingInit (world : GatewayWorld) (numberOfConnections : Nat)
    (effects : List GatewayEffect) : GatewayOutcome :=
  let effects1 := effects ++ [GatewayEffect.lws_create_context]
  if !world.contextCreated then .returned effects1
  else
    match connectClients world (List.range numberOfConnections) effects1 with
    | .error outcome => outcome
    | .ok effects2 =>
      let effects3 := effects2 ++ [GatewayEffect.io_uring_register_files numberOfConnections]
      if world.registerFilesRet < 0 then .returned effects3
      else
        .serving (effects3 ++
          (List.range numberOfConnections).map GatewayEffect.ev_io_start ++
          [GatewayEffect.ev_timer_start 600])

/-- The function `bookBuilderGateway`, up to its service loop; `numberOfConnections` is
the macro `NUMBER_OF_CONNECTIONS` of the build. -/
def bookBuilderGateway (world : GatewayWorld) (numberOfConnections : Nat) : GatewayOutcome :=
  let numCores := intOfUnsigned world.hardware_concurrency
  if numCores = 0 then .returned []
  else if numCores < (CPU_CORE_INDEX_FOR_BOOK_BUILDER_GATEWAY_THREAD : Int) then .returned []
  else
    let cpuCoreNumberForBookBuilderThread := CPU_CORE_INDEX_FOR_BOOK_BUILDER_GATEWAY_THREAD
    let effects := [GatewayEffect.setThreadAffinity cpuCoreNumberForBookBuilderThread]
    if world.geteuid ≠ 0 then
      let effects1 := effects ++
        [GatewayEffect.io_uring_queue_init NUMBER_OF_IO_URING_SQ_ENTRIES]
      if world.queueInitRet ≠ 0 then .returned effects1
      else afterRingInit world numberOfConnections effects1
    else
      let effects1 := effects ++
        [GatewayEffect.io_uring_queue_init_params NUMBER_OF_IO_URING_SQ_ENTRIES
          CPU_CORE_INDEX_FOR_SQ_POLL_THREAD]
      if world.queueInitRet ≠ 0 then .returned effects1
      else
        let effects2 := effects1 ++ [GatewayEffect.writePipe world.ring_fd]
        if world.pipeWriteRet ≠ 4 then .returned effects2
        else afterRingInit world numberOfConnections effects2

/-- A machine that reports no CPU count: unprivileged user, every call succeeds. -/
def noCoreWorld : GatewayWorld :=
  { hardware_concurrency := 0, geteuid := 1000, queueInitRet := 0, ring_fd := 5
    pipeWriteRet := 4, contextCreated := true
    connect := [.established, .established, .established]
    setsockoptRet := [0, 0, 0], registerFilesRet := 0 }

/-- A machine with a single core (core 0): root user, every call succeeds. -/
def singleCoreWorld : GatewayWorld :=
  { noCoreWorld with hardware_concurrency := 1, geteuid := 0 }

/-! ## Definitions: the pending ciphertext of an order-manager client
(`src/OrderManager/OrderManagerUtils.hpp`, lines 142-167, 244-251 and 417-430)

A heap block is the list of its bytes; the empty list also stands for a null pointer. -/

/-- The data members of `struct OrderManagerClient` that hold bytes waiting to be written
to the socket or to be encrypted. -/
structure OrderManagerClient where
  sockfd : Int
  writeBuffer : List Byte
  writeLen : Nat
  encrypt_buf : List Byte
  encrypt_len : Nat
deriving DecidableEq, Repr

/-- The bytes waiting to be written to the socket: `writeBuffer[0 .. writeLen)`. -/
def OrderManagerClient.pending (client : OrderManagerClient) : List Byte :=
  client.writeBuffer.take client.writeLen

/-- The call `realloc(block, size)`: `none` when the allocator fails (a null result). The
bytes of the old block are kept up to the new size; bytes added by growth are
indeterminate in C and are zero here. -/
def realloc (succeeds : Bool) (block : List Byte) (size : Nat) : Option (List Byte) :=
  if succeeds then some (block.take size ++ List.replicate (size - block.length) 0)
  else none

/-- The call `memcpy(dst + offset, src, len)`; `none` when it leaves either block. -/
def memcpyAt (dst : List Byte) (offset : Nat) (src : List Byte) (len : Nat) :
    Option (List Byte) :=
  if len ≤ src.length ∧ offset + len ≤ dst.length then
    some (dst.take offset ++ src.take len ++ dst.drop (offset + len))
  else none

/-- The call `memmove(block, block + n, count)`; `none` when it leaves the block. -/
def memmoveDown (block : List Byte) (n count : Nat) : Option (List Byte) :=
  if n + count ≤ block.length then
    some ((block.drop n).take count ++ block.drop count)
  else none

/-- The function `queue_encrypted_bytes`. `none`: the `memcpy` writes through a null
pointer or outside a block. -/
def queue_encrypted_bytes (reallocSucceeds : Bool) (client : OrderManagerClient)
    (buf : List Byte) (len : Nat) : Option OrderManagerClient :=
  match realloc reallocSucceeds client.writeBuffer
      ((client.writeLen + len) % SIZE_T_RANGE) with
  | none => none
  | some block =>
    match memcpyAt block client.writeLen buf len with
    | none => none
    | some block1 =>
      some { client with writeBuffer := block1
                         writeLen := (client.writeLen + len) % SIZE_T_RANGE }

/-- The function `do_sock_write`; `written` is the result of
`write(client->sockfd, client->writeBuffer, client->writeLen)`. The result is the returned
`int` and the client after the call; `none`: the `memmove` leaves the block. -/
def do_sock_write (reallocSucceeds : Bool) (written : Int) (client : OrderManagerClient) :
    Option (Int × OrderManagerClient) :=
  let n := written
  if 0 < n then
    let moved :=
      if n.toNat % SIZE_T_RANGE < client.writeLen then
        memmoveDown client.writeBuffer n.toNat
          ((client.writeLen + SIZE_T_RANGE - n.toNat % SIZE_T_RANGE) % SIZE_T_RANGE)
      else some client.writeBuffer
    match moved with
    | none => none
    | some block =>
      let writeLen := (client.writeLen + SIZE_T_RANGE - n.toNat % SIZE_T_RANGE) % SIZE_T_RANGE
      some (0, { client with writeBuffer := (realloc reallocSucceeds block writeLen).getD []
                             writeLen := writeLen })
  else some (-1, client)

/-- A client with the three bytes 1, 2, 3 pending. -/
def clientWithThree : OrderManagerClient :=
  { sockfd := 9, writeBuffer := [1, 2, 3], writeLen := 3, encrypt_buf := [], encrypt_len := 0 }

/-! ## Definitions: the plaintext held by a TLS session

OpenSSL is outside the repository; what `SSL_read` does to the plaintext a session holds
is taken from its documentation. -/

/-- The plaintext a TLS session has decrypted from the ciphertext fed to it and has not
handed out yet: the records, oldest first. -/
abbrev PendingPlaintext := List (List Byte)

/-- The call `SSL_read(ssl, buf, num)` on a session: with nothing pending it returns -1 and
places no byte; otherwise it hands out the oldest record, or its first `num` bytes when
the record is longer, and keeps the remainder pending. The result is the returned
length, the bytes placed in `buf` and the plaintext still pending. -/
def sslReadPending (pending : PendingPlaintext) (num : Nat) :
    Int × List Byte × PendingPlaintext :=
  match pending with
  | [] => (-1, [], [])
  | record :: rest =>
    if record.length ≤ num then (record.length, record, rest)
    else (num, record.take num, record.drop num :: rest)

/-- Whether a call of the cycle is an `SSL_read`. -/
def Effect.isSslRead : Effect → Bool
  | .SSL_read _ _ => true
  | _ => false

/-- The plaintext a session still holds after the calls of a cycle, given what it held
when the ciphertext chunk had been fed in: every `SSL_read` of the cycle takes its share. -/
def pendingAfter (effects : List Effect) (pending : PendingPlaintext) : PendingPlaintext :=
  effects.foldl
    (fun held effect =>
      match effect with
      | .SSL_read _ num => (sslReadPending held num).2.2
      | _ => held)
    pending

/-- The plaintext of a chunk that completes two TLS records: 9, 8, 7 and 6, 5. -/
def twoRecords : PendingPlaintext := [[9, 8, 7], [6, 5]]

/-! ## Definitions: the Kraken subscription as JSON text -/

/-- The JSON text the Kraken subscription is specified to be, for a symbol. -/
def krakenSubscribeJson (sym : String) : String :=
  "\x7b\"method\":\"subscribe\",\"params\":\x7b\"channel\":\"book\",\"depth\":10,\"snapshot\":true,\"symbol\":[\"" ++ sym ++ "\"]\x7d,\"req_id\":1234567890\x7d"

/-- The double quote character. -/
def quoteChar : Char := Char.ofNat 34

/-- The backslash character. -/
def backslashChar : Char := Char.ofNat 92

/-- Where a scan of a JSON text stands: outside string literals, inside one, or inside one
right after a backslash. -/
inductive JsonPosition where
  | outside
  | inside
  | escaped
deriving DecidableEq, Repr

/-- The position after one more character. -/
def JsonPosition.next : JsonPosition → Char → JsonPosition
  | .outside, c => if c = quoteChar then .inside else .outside
  | .inside, c =>
    if c = backslashChar then .escaped else if c = quoteChar then .outside else .inside
  | .escaped, _ => .inside

/-- The position after a run of characters. -/
def JsonPosition.after (p : JsonPosition) (cs : List Char) : JsonPosition :=
  cs.foldl JsonPosition.next p

/-- Deleting the whitespace that lies outside string literals. -/
def stripOutsideStrings : JsonPosition → List Char → List Char
  | _, [] => []
  | p, c :: cs =>
    if p = .outside ∧ c.isWhitespace = true then stripOutsideStrings (p.next c) cs
    else c :: stripOutsideStrings (p.next c) cs

/-- A production Kraken build with `USE_PORTFOLIO_122`. -/
def krakenBuild122 : BuildFlags :=
  { USE_BITMEX_EXCHANGE := false, USE_BITMEX_MOCK_EXCHANGE := false
    USE_BITMEX_TESTNET_EXCHANGE := false, USE_KRAKEN_EXCHANGE := true
    USE_KRAKEN_MOCK_EXCHANGE := false, USE_PORTFOLIO_122 := true
    USE_PORTFOLIO_92 := false, USE_PORTFOLIO_50 := false, USE_PORTFOLIO_3 := false }

/-- A later cycle on the same connection: the peer has closed, so `recvmsg` completes with
0 bytes and places no control message in `ctrlBuf`, and `SSL_read` returns -1. The three
clock readings are 400, 500 and 600. -/
def endOfStreamWorld : CycleWorld :=
  { revents := 1, pollNow := 400, sqeAvailable := true, submitRet := 1, waitRet := 0
    readCompletionNow := 500, cqeRes := 0, received := [], control := none
    bioWriteRet := 0, sslReadRet := -1, plaintext := [], decryptionNow := 600 }

/-- The context a connection is left with by the cycle of `plainReadWorld`, whose
`recvmsg` carried the kernel timestamp 1700000000 s 123456 us. -/
def contextAfterPlainRead : WebSocketClientEvContext :=
  clearedContext (decryptedContext plainReadWorld (WebSocketClientEvContext.create 7 0))

/-! ## Arithmetic of the ring indices -/

theorem wrap_succ (C n : Nat) (hC : 0 < C) (hlt : C < SIZE_T_RANGE) :
    (if (n % C + 1) % SIZE_T_RANGE = C then 0 else (n % C + 1) % SIZE_T_RANGE)
      = (n + 1) % C := by
  have h1 : n % C < C := Nat.mod_lt _ hC
  have h2 : (n % C + 1) % SIZE_T_RANGE = n % C + 1 := Nat.mod_eq_of_lt (by omega)
  have h3 : (n + 1) % C = (n % C + 1) % C := (Nat.mod_add_mod n C 1).symm
  rw [h2, h3]
  by_cases h : n % C + 1 = C
  · rw [if_pos h, h, Nat.mod_self]
  · have h4 : (n % C + 1) % C = n % C + 1 := Nat.mod_eq_of_lt (by omega)
    rw [if_neg h, h4]

theorem mod_ne_of_gap {C i j : Nat} (hij : i < j) (hd : j - i < C) : i % C ≠ j % C := by
  intro h
  have h0 : (j - i) % C = 0 := Nat.sub_mod_eq_zero_of_mod_eq h.symm
  have h1 : C ∣ j - i := Nat.dvd_of_mod_eq_zero h0
  have h2 := Nat.le_of_dvd (by omega) h1
  omega

theorem gap_eq_of_mod_eq {C i j : Nat} (hij : i < j) (hd : j - i ≤ C) (h : j % C = i % C) :
    j = i + C := by
  have h0 : (j - i) % C = 0 := Nat.sub_mod_eq_zero_of_mod_eq h
  have h1 : C ∣ j - i := Nat.dvd_of_mod_eq_zero h0
  have h2 := Nat.le_of_dvd (by omega) h1
  omega

/-! ## The invariant is established by construction and kept by every call -/

theorem inv_construct {T : Type} [Inhabited T] (C : Nat) :
    Inv C (SPSCQueue.construct C : SPSCQueue T) [] [] 0 0 where
  size := by simp [SPSCQueue.construct]
  pop_le := Nat.le_refl _
  room := Nat.zero_le _
  widx := by simp [SPSCQueue.construct]
  ridx := by simp [SPSCQueue.construct]
  rcidx := by simp [SPSCQueue.construct]
  rc_le := Nat.le_refl _
  rc_room := Nat.zero_le _
  wcidx := by simp [SPSCQueue.construct]
  pc_ge := Nat.le_refl _
  pc_le := Nat.le_refl _
  slots := by intro i _ h; simp at h
  handed := by simp

/-- Storing a value at the write index keeps the invariant, whenever the producer's
view of the read index still leaves a free slot. -/
theorem inv_store {T : Type} {C : Nat} (hC : 0 < C) {q s : SPSCQueue T}
    {pushed popped : List T} {rc pc rc1 : Nat} (inv : Inv C q pushed popped rc pc)
    (v : T) (hd : s.data_ = q.data_) (hr : s.readIdx_ = q.readIdx_)
    (hwc : s.writeIdxCached_ = q.writeIdxCached_) (hrc : s.readIdxCached_ = rc1 % C)
    (hle : rc1 ≤ popped.length) (hroom : pushed.length + 1 ≤ rc1 + (C - 1)) :
    Inv C { s with data_ := s.data_.set q.writeIdx_ v,
                   writeIdx_ := (pushed.length + 1) % C }
      (pushed ++ [v]) popped rc1 pc where
  size := by simp [hd, inv.size]
  pop_le := by have := inv.pop_le; simp; omega
  room := by simp; omega
  widx := by simp
  ridx := by simp [hr, inv.ridx]
  rcidx := by simp [hrc]
  rc_le := hle
  rc_room := by simp; omega
  wcidx := by simp [hwc, inv.wcidx]
  pc_ge := inv.pc_ge
  pc_le := by have := inv.pc_le; simp; omega
  slots := by
    intro i hi1 hi2
    simp only [List.length_append, List.length_singleton] at hi2
    have hwlt : pushed.length % C < q.data_.length := by
      rw [inv.size]; exact Nat.mod_lt _ hC
    simp only [hd, inv.widx]
    by_cases hi : i = pushed.length
    · subst hi
      rw [List.getElem?_set_self hwlt, List.getElem?_append_right (Nat.le_refl _)]
      simp
    · have hlt : i < pushed.length := by omega
      have hne : pushed.length % C ≠ i % C := by
        have := mod_ne_of_gap (C := C) hlt (by have := inv.rc_le; omega)
        exact fun h => this h.symm
      rw [List.getElem?_set_ne hne, List.getElem?_append_left hlt]
      exact inv.slots i hi1 hlt
  handed := by
    rw [List.take_append_of_le_length inv.pop_le]
    exact inv.handed

theorem reload_readIdx {T : Type} (q : SPSCQueue T) (h : q.readIdxCached_ = q.readIdx_) :
    ({ q with readIdxCached_ := q.readIdx_ } : SPSCQueue T) = q := by
  cases q; simp only [SPSCQueue.mk.injEq, true_and] at h ⊢; exact h.symm

theorem reload_writeIdx {T : Type} (q : SPSCQueue T) (h : q.writeIdxCached_ = q.writeIdx_) :
    ({ q with writeIdxCached_ := q.writeIdx_ } : SPSCQueue T) = q := by
  cases q; simp only [SPSCQueue.mk.injEq, true_and, and_true] at h ⊢; exact h.symm

/-- What `push` does in a state that satisfies the invariant. -/
theorem push_spec {T : Type} {C : Nat} (hC : 0 < C) (hlt : C < SIZE_T_RANGE)
    {q : SPSCQueue T} {pushed popped : List T} {rc pc : Nat}
    (inv : Inv C q pushed popped rc pc) (v : T) :
    ((q.writeIdx_ + 1) % C = q.readIdx_ ∧ q.push v = some (false, q)) ∨
    ((q.writeIdx_ + 1) % C ≠ q.readIdx_ ∧
      ∃ q1, q.push v = some (true, q1) ∧
        q1.data_ = q.data_.set q.writeIdx_ v ∧
        q1.writeIdx_ = (q.writeIdx_ + 1) % C ∧
        q1.readIdx_ = q.readIdx_ ∧
        q1.writeIdxCached_ = q.writeIdxCached_ ∧
        ∃ rc1, Inv C q1 (pushed ++ [v]) popped rc1 pc) := by
  have hnext : (if (q.writeIdx_ + 1) % SIZE_T_RANGE = q.data_.length then 0
      else (q.writeIdx_ + 1) % SIZE_T_RANGE) = (pushed.length + 1) % C := by
    rw [inv.widx, inv.size]; exact wrap_succ C _ hC hlt
  have hw : (q.writeIdx_ + 1) % C = (pushed.length + 1) % C := by
    rw [inv.widx, Nat.mod_add_mod]
  have hwlt : q.writeIdx_ < q.data_.length := by
    rw [inv.widx, inv.size]; exact Nat.mod_lt _ hC
  have hple := inv.pop_le
  have hroom := inv.room
  have hrcle := inv.rc_le
  have hrcroom := inv.rc_room
  by_cases hfull : (pushed.length + 1) % C = popped.length % C
  · left
    have hgap : pushed.length + 1 = popped.length + C :=
      gap_eq_of_mod_eq (by omega) (by omega) hfull
    have hrc : rc = popped.length := by omega
    have hcached : q.readIdxCached_ = q.readIdx_ := by rw [inv.rcidx, inv.ridx, hrc]
    refine ⟨by rw [hw, inv.ridx]; exact hfull, ?_⟩
    have h1 : (pushed.length + 1) % C = q.readIdxCached_ := by
      rw [inv.rcidx, hrc]; exact hfull
    have h2 : (pushed.length + 1) % C = q.readIdx_ := by rw [inv.ridx]; exact hfull
    unfold SPSCQueue.push
    simp only [hnext, if_pos h1, if_pos h2]
    rw [reload_readIdx q hcached]
  · right
    refine ⟨by rw [hw, inv.ridx]; exact hfull, ?_⟩
    have h2 : ¬ (pushed.length + 1) % C = q.readIdx_ := by rw [inv.ridx]; exact hfull
    by_cases h1 : (pushed.length + 1) % C = q.readIdxCached_
    · refine ⟨{ q with data_ := q.data_.set q.writeIdx_ v,
                       writeIdx_ := (pushed.length + 1) % C,
                       readIdxCached_ := q.readIdx_ }, ?_, ?_, ?_, ?_, ?_, popped.length, ?_⟩
      · unfold SPSCQueue.push
        simp only [hnext, if_pos h1, if_neg h2, SPSCQueue.pushStore, if_pos hwlt]
      · rfl
      · exact hw.symm
      · rfl
      · rfl
      · have hne : pushed.length + 1 ≠ popped.length + C := by
          intro h; apply hfull; rw [h]; simp
        exact inv_store (s := { q with readIdxCached_ := q.readIdx_ }) hC inv v rfl rfl rfl
          inv.ridx (Nat.le_refl _) (by omega)
    · refine ⟨{ q with data_ := q.data_.set q.writeIdx_ v,
                       writeIdx_ := (pushed.length + 1) % C }, ?_, ?_, ?_, ?_, ?_, rc, ?_⟩
      · unfold SPSCQueue.push
        simp only [hnext, if_neg h1, SPSCQueue.pushStore, if_pos hwlt]
      · rfl
      · exact hw.symm
      · rfl
      · rfl
      · have hne : pushed.length + 1 ≠ rc + C := by
          intro h; apply h1; rw [inv.rcidx, h]; simp
        exact inv_store (s := q) hC inv v rfl rfl rfl inv.rcidx hrcle (by omega)

/-- Handing out the oldest value and advancing the read index keeps the invariant,
whenever the consumer's view of the write index is ahead of the read index. -/
theorem inv_load {T : Type} {C : Nat} {q s : SPSCQueue T}
    {pushed popped : List T} {rc pc pc1 : Nat} (inv : Inv C q pushed popped rc pc)
    (v : T) (hv : pushed[popped.length]? = some v)
    (hd : s.data_ = q.data_) (hw : s.writeIdx_ = q.writeIdx_)
    (hrc : s.readIdxCached_ = q.readIdxCached_) (hwc : s.writeIdxCached_ = pc1 % C)
    (hge : popped.length + 1 ≤ pc1) (hle : pc1 ≤ pushed.length) :
    Inv C { s with readIdx_ := (popped.length + 1) % C } pushed (popped ++ [v]) rc pc1 where
  size := by simp [hd, inv.size]
  pop_le := by simp; omega
  room := by have := inv.room; simp; omega
  widx := by simp [hw, inv.widx]
  ridx := by simp
  rcidx := by simp [hrc, inv.rcidx]
  rc_le := by have := inv.rc_le; simp; omega
  rc_room := inv.rc_room
  wcidx := by simp [hwc]
  pc_ge := by simp; omega
  pc_le := hle
  slots := by
    intro i hi1 hi2
    simp only [List.length_append, List.length_singleton] at hi1
    simp only [hd]
    exact inv.slots i (by omega) hi2
  handed := by
    simp only [List.length_append, List.length_singleton]
    rw [List.take_succ, hv, ← inv.handed]
    rfl

/-- What `pop` does in a state that satisfies the invariant. -/
theorem pop_spec {T : Type} {C : Nat} (hC : 0 < C) (hlt : C < SIZE_T_RANGE)
    {q : SPSCQueue T} {pushed popped : List T} {rc pc : Nat}
    (inv : Inv C q pushed popped rc pc) (v0 : T) :
    (q.writeIdx_ = q.readIdx_ ∧ q.pop v0 = some (false, v0, q)) ∨
    (q.writeIdx_ ≠ q.readIdx_ ∧
      ∃ v q1, q.pop v0 = some (true, v, q1) ∧
        q.data_[q.readIdx_]? = some v ∧
        pushed[popped.length]? = some v ∧
        q1.data_ = q.data_ ∧
        q1.readIdx_ = (q.readIdx_ + 1) % C ∧
        q1.writeIdx_ = q.writeIdx_ ∧
        q1.readIdxCached_ = q.readIdxCached_ ∧
        ∃ pc1, Inv C q1 pushed (popped ++ [v]) rc pc1) := by
  have hnext : (if (q.readIdx_ + 1) % SIZE_T_RANGE = q.data_.length then 0
      else (q.readIdx_ + 1) % SIZE_T_RANGE) = (popped.length + 1) % C := by
    rw [inv.ridx, inv.size]; exact wrap_succ C _ hC hlt
  have hr : (q.readIdx_ + 1) % C = (popped.length + 1) % C := by
    rw [inv.ridx, Nat.mod_add_mod]
  have hple := inv.pop_le
  have hroom := inv.room
  have hpcge := inv.pc_ge
  have hpcle := inv.pc_le
  by_cases hempty : pushed.length % C = popped.length % C
  · left
    have hPR : pushed.length = popped.length := by
      by_contra hne
      exact mod_ne_of_gap (C := C) (i := popped.length) (j := pushed.length)
        (by omega) (by omega) hempty.symm
    have hpc : pc = pushed.length := by omega
    have hcached : q.writeIdxCached_ = q.writeIdx_ := by rw [inv.wcidx, inv.widx, hpc]
    refine ⟨by rw [inv.widx, inv.ridx]; exact hempty, ?_⟩
    have h1 : q.readIdx_ = q.writeIdxCached_ := by
      rw [inv.ridx, inv.wcidx, hpc]; exact hempty.symm
    have h2 : q.readIdx_ = q.writeIdx_ := by rw [h1, hcached]
    unfold SPSCQueue.pop
    simp only [if_pos h1, if_pos h2]
    rw [reload_writeIdx q hcached]
  · right
    refine ⟨by rw [inv.widx, inv.ridx]; exact hempty, ?_⟩
    have hlt2 : popped.length < pushed.length := by
      rcases Nat.lt_or_ge popped.length pushed.length with h | h
      · exact h
      · exfalso; apply hempty; rw [Nat.le_antisymm h hple]
    have hv : pushed[popped.length]? = some (pushed[popped.length]) :=
      List.getElem?_eq_getElem hlt2
    have hslot : q.data_[q.readIdx_]? = some (pushed[popped.length]) := by
      rw [inv.ridx, inv.slots popped.length (Nat.le_refl _) hlt2]; exact hv
    have h2 : ¬ q.readIdx_ = q.writeIdx_ := by
      rw [inv.ridx, inv.widx]; exact fun h => hempty h.symm
    by_cases h1 : q.readIdx_ = q.writeIdxCached_
    · refine ⟨pushed[popped.length],
        { q with readIdx_ := (popped.length + 1) % C, writeIdxCached_ := q.writeIdx_ },
        ?_, hslot, hv, rfl, hr.symm, rfl, rfl, pushed.length, ?_⟩
      · unfold SPSCQueue.pop
        simp only [if_pos h1, if_neg h2, SPSCQueue.popLoad, hslot, hnext]
      · exact inv_load (s := { q with writeIdxCached_ := q.writeIdx_ }) inv _ hv rfl rfl rfl
          inv.widx (by omega) (Nat.le_refl _)
    · refine ⟨pushed[popped.length], { q with readIdx_ := (popped.length + 1) % C },
        ?_, hslot, hv, rfl, hr.symm, rfl, rfl, pc, ?_⟩
      · unfold SPSCQueue.pop
        simp only [if_neg h1, SPSCQueue.popLoad, hslot, hnext]
      · have hne : popped.length ≠ pc := by
          intro h; apply h1; rw [inv.ridx, inv.wcidx, h]
        exact inv_load (s := q) inv _ hv rfl rfl rfl inv.wcidx (by omega) hpcle

/-- One recorded call keeps the invariant and never faults. -/
theorem step_inv {T : Type} {C : Nat} (hC : 0 < C) (hlt : C < SIZE_T_RANGE)
    (h : History T) (rc pc : Nat) (inv : Inv C h.queue h.pushed h.popped rc pc)
    (call : QueueCall T) :
    ∃ h1 rc1 pc1, h.step call = some h1 ∧ Inv C h1.queue h1.pushed h1.popped rc1 pc1 := by
  cases call with
  | push v =>
    rcases push_spec hC hlt inv v with ⟨_, hp⟩ | ⟨_, q1, hp, _, _, _, _, rc1, inv1⟩
    · exact ⟨{ queue := h.queue, pushed := h.pushed, popped := h.popped }, rc, pc,
        by simp only [History.step, hp], inv⟩
    · exact ⟨{ queue := q1, pushed := h.pushed ++ [v], popped := h.popped }, rc1, pc,
        by simp only [History.step, hp], inv1⟩
  | pop v0 =>
    rcases pop_spec hC hlt inv v0 with ⟨_, hp⟩ | ⟨_, v, q1, hp, _, _, _, _, _, _, pc1, inv1⟩
    · exact ⟨{ queue := h.queue, pushed := h.pushed, popped := h.popped }, rc, pc,
        by simp only [History.step, hp], inv⟩
    · exact ⟨{ queue := q1, pushed := h.pushed, popped := h.popped ++ [v] }, rc, pc1,
        by simp only [History.step, hp], inv1⟩

/-- Every sequence of calls runs to the end and keeps the invariant. -/
theorem run_inv {T : Type} {C : Nat} (hC : 0 < C) (hlt : C < SIZE_T_RANGE)
    (calls : List (QueueCall T)) :
    ∀ (h : History T) (rc pc : Nat), Inv C h.queue h.pushed h.popped rc pc →
      ∃ h1 rc1 pc1, h.run calls = some h1 ∧ Inv C h1.queue h1.pushed h1.popped rc1 pc1 := by
  induction calls with
  | nil => intro h rc pc inv; exact ⟨h, rc, pc, rfl, inv⟩
  | cons call rest ih =>
    intro h rc pc inv
    obtain ⟨h1, rc1, pc1, hs, inv1⟩ := step_inv hC hlt h rc pc inv call
    obtain ⟨h2, rc2, pc2, hr, inv2⟩ := ih h1 rc1 pc1 inv1
    refine ⟨h2, rc2, pc2, ?_, inv2⟩
    unfold History.run at hr ⊢
    rw [List.foldlM_cons, hs]
    exact hr

/-- Every reachable state of a queue with at least one slot satisfies the invariant for
some record of accepted and handed-out values. -/
theorem reachable_inv {T : Type} [Inhabited T] {C : Nat} (hC : 0 < C)
    (hlt : C < SIZE_T_RANGE) {q : SPSCQueue T} (hq : Reachable C q) :
    ∃ pushed popped rc pc, Inv C q pushed popped rc pc := by
  induction hq with
  | construct => exact ⟨[], [], 0, 0, inv_construct C⟩
  | @push q q1 v b _ hp ih =>
    obtain ⟨pushed, popped, rc, pc, inv⟩ := ih
    rcases push_spec hC hlt inv v with ⟨_, hp1⟩ | ⟨_, q2, hp1, _, _, _, _, rc1, inv1⟩
    · rw [hp1] at hp
      simp only [Option.some.injEq, Prod.mk.injEq] at hp
      exact ⟨pushed, popped, rc, pc, hp.2 ▸ inv⟩
    · rw [hp1] at hp
      simp only [Option.some.injEq, Prod.mk.injEq] at hp
      exact ⟨pushed ++ [v], popped, rc1, pc, hp.2 ▸ inv1⟩
  | @pop q q1 v0 v b _ hp ih =>
    obtain ⟨pushed, popped, rc, pc, inv⟩ := ih
    rcases pop_spec hC hlt inv v0 with ⟨_, hp1⟩ | ⟨_, v1, q2, hp1, _, _, _, _, _, _, pc1, inv1⟩
    · rw [hp1] at hp
      simp only [Option.some.injEq, Prod.mk.injEq] at hp
      exact ⟨pushed, popped, rc, pc, hp.2.2 ▸ inv⟩
    · rw [hp1] at hp
      simp only [Option.some.injEq, Prod.mk.injEq] at hp
      exact ⟨pushed, popped ++ [v1], rc, pc1, hp.2.2 ▸ inv1⟩

/-- A queue constructed with no slot at all stays in its constructed state. -/
theorem reachable_zero {T : Type} [Inhabited T] {q : SPSCQueue T} (hq : Reachable 0 q) :
    q = SPSCQueue.construct 0 := by
  induction hq with
  | construct => rfl
  | @push q q1 v b _ hp ih =>
    subst ih
    simp [SPSCQueue.push, SPSCQueue.pushStore, SPSCQueue.construct, SIZE_T_RANGE] at hp
  | @pop q q1 v0 v b _ hp ih =>
    subst ih
    simp [SPSCQueue.pop, SPSCQueue.construct] at hp
    exact hp.2.2.symm

/-! ## The SPSC queue contract -/

/-- C2 (full and empty by the two indices). In every state reachable from construction
with capacity `C ≥ 2`, `push` returns, and returns false exactly when
`(writeIdx + 1) mod C = readIdx`; `pop` returns, and returns false exactly when
`writeIdx = readIdx`. -/
theorem full_empty_by_indices {T : Type} [Inhabited T] (C : Nat) (h2 : 2 ≤ C)
    (hlt : C < SIZE_T_RANGE) (q : SPSCQueue T) (hq : Reachable C q) (v v0 : T) :
    (∃ b q1, q.push v = some (b, q1) ∧
      (b = false ↔ (q.writeIdx_ + 1) % C = q.readIdx_)) ∧
    (∃ b v1 q1, q.pop v0 = some (b, v1, q1) ∧
      (b = false ↔ q.writeIdx_ = q.readIdx_)) := by
  obtain ⟨pushed, popped, rc, pc, inv⟩ := reachable_inv (by omega) hlt hq
  constructor
  · rcases push_spec (by omega) hlt inv v with ⟨hf, hp⟩ | ⟨hf, q1, hp, _⟩
    · exact ⟨false, q, hp, by simp [hf]⟩
    · exact ⟨true, q1, hp, by simp [hf]⟩
  · rcases pop_spec (by omega) hlt inv v0 with ⟨he, hp⟩ | ⟨he, v1, q1, hp, _⟩
    · exact ⟨false, v0, q, hp, by simp [he]⟩
    · exact ⟨true, v1, q1, hp, by simp [he]⟩

theorem full_empty_by_indices_witness :
    (2 ≤ 2 ∧ 2 < SIZE_T_RANGE ∧ Reachable 2 (SPSCQueue.construct 2 : SPSCQueue Nat)) ∧
    ((∃ b q1, (SPSCQueue.construct 2 : SPSCQueue Nat).push 7 = some (b, q1) ∧
      (b = false ↔ ((SPSCQueue.construct 2 : SPSCQueue Nat).writeIdx_ + 1) % 2
        = (SPSCQueue.construct 2 : SPSCQueue Nat).readIdx_)) ∧
    (∃ b v1 q1, (SPSCQueue.construct 2 : SPSCQueue Nat).pop 0 = some (b, v1, q1) ∧
      (b = false ↔ (SPSCQueue.construct 2 : SPSCQueue Nat).writeIdx_
        = (SPSCQueue.construct 2 : SPSCQueue Nat).readIdx_))) :=
  ⟨⟨by decide, by decide, Reachable.construct⟩,
    full_empty_by_indices 2 (by decide) (by decide) _ Reachable.construct 7 0⟩

/-- C3 (push on a full queue). In every reachable state with
`(writeIdx + 1) mod C = readIdx`, `push(v)` returns false and the queue after the call
is the queue before it: every slot of `data_`, `readIdx_`, `writeIdx_` and both cached
indices are as they were. -/
theorem push_full_unchanged {T : Type} [Inhabited T] (C : Nat) (hlt : C < SIZE_T_RANGE)
    (q : SPSCQueue T) (hq : Reachable C q)
    (hfull : (q.writeIdx_ + 1) % C = q.readIdx_) (v : T) :
    q.push v = some (false, q) := by
  rcases Nat.eq_zero_or_pos C with h0 | hC
  · subst h0
    rw [reachable_zero hq] at hfull
    simp [SPSCQueue.construct] at hfull
  · obtain ⟨pushed, popped, rc, pc, inv⟩ := reachable_inv hC hlt hq
    rcases push_spec hC hlt inv v with ⟨_, hp⟩ | ⟨hf, _⟩
    · exact hp
    · exact absurd hfull hf

theorem push_full_unchanged_witness :
    (2 < SIZE_T_RANGE ∧ Reachable 2 fullQueue2 ∧
      (fullQueue2.writeIdx_ + 1) % 2 = fullQueue2.readIdx_) ∧
    fullQueue2.push 9 = some (false, fullQueue2) :=
  ⟨⟨by decide,
      Reachable.push Reachable.construct
        (show (SPSCQueue.construct 2 : SPSCQueue Nat).push 5 = some (true, fullQueue2) by decide),
      by decide⟩,
    push_full_unchanged 2 (by decide) fullQueue2
      (Reachable.push Reachable.construct
        (show (SPSCQueue.construct 2 : SPSCQueue Nat).push 5 = some (true, fullQueue2) by decide))
      (by decide) 9⟩

/-- C4 (pop on an empty queue). In every reachable state with `writeIdx = readIdx`,
`pop(val)` returns false, the caller's `val` is what it was, and the queue after the
call is the queue before it: every slot of `data_`, `readIdx_`, `writeIdx_` and both
cached indices are as they were. -/
theorem pop_empty_unchanged {T : Type} [Inhabited T] (C : Nat) (hlt : C < SIZE_T_RANGE)
    (q : SPSCQueue T) (hq : Reachable C q)
    (hempty : q.writeIdx_ = q.readIdx_) (val : T) :
    q.pop val = some (false, val, q) := by
  rcases Nat.eq_zero_or_pos C with h0 | hC
  · subst h0
    rw [reachable_zero hq]
    rfl
  · obtain ⟨pushed, popped, rc, pc, inv⟩ := reachable_inv hC hlt hq
    rcases pop_spec hC hlt inv val with ⟨_, hp⟩ | ⟨he, _⟩
    · exact hp
    · exact absurd hempty he

theorem pop_empty_unchanged_witness :
    (2 < SIZE_T_RANGE ∧ Reachable 2 drainedQueue2 ∧
      drainedQueue2.writeIdx_ = drainedQueue2.readIdx_) ∧
    drainedQueue2.pop 42 = some (false, 42, drainedQueue2) :=
  ⟨⟨by decide,
      Reachable.pop (Reachable.push Reachable.construct
        (show (SPSCQueue.construct 2 : SPSCQueue Nat).push 5 = some (true, fullQueue2) by decide))
        (show fullQueue2.pop 0 = some (true, 5, drainedQueue2) by decide),
      by decide⟩,
    pop_empty_unchanged 2 (by decide) drainedQueue2
      (Reachable.pop (Reachable.push Reachable.construct
        (show (SPSCQueue.construct 2 : SPSCQueue Nat).push 5 = some (true, fullQueue2) by decide))
        (show fullQueue2.pop 0 = some (true, 5, drainedQueue2) by decide))
      (by decide) 42⟩
/-- The number of entries held, computed from the two indices, in terms of the numbers
of accepted pushes and successful pops. -/
theorem occupancy_mod {C P R : Nat} (hC : 0 < C) (hRP : R ≤ P) :
    (P % C + C - R % C) % C = (P - R) % C := by
  have hr : R % C < C := Nat.mod_lt _ hC
  have h1 : (P % C + C - R % C) + R % C ≡ (P - R) + R % C [MOD C] := by
    have e1 : (P % C + C - R % C) + R % C = P % C + C := by omega
    rw [e1]
    have e2 : P % C + C ≡ P [MOD C] := by
      show (P % C + C) % C = P % C
      rw [Nat.add_mod_right, Nat.mod_mod]
    have e3 : (P - R) + R % C ≡ (P - R) + R [MOD C] :=
      Nat.ModEq.add_left _ (Nat.mod_modEq R C)
    have e4 : (P - R) + R = P := by omega
    rw [e4] at e3
    exact e2.trans e3.symm
  exact Nat.ModEq.add_right_cancel' _ h1

/-- C5, as stated, fails: on a fresh queue of capacity 2, `push(5)` succeeds and the
`pop` that follows returns 5, after which the read index and the write index are both
1, while both were 0 before the push. -/
theorem push_pop_indices_moved :
    Reachable 2 (SPSCQueue.construct 2 : SPSCQueue Nat) ∧
    (SPSCQueue.construct 2 : SPSCQueue Nat).push 5 = some (true, fullQueue2) ∧
    fullQueue2.pop 0 = some (true, 5, drainedQueue2) ∧
    drainedQueue2.readIdx_ % 2 ≠ (SPSCQueue.construct 2 : SPSCQueue Nat).readIdx_ % 2 ∧
    drainedQueue2.writeIdx_ % 2 ≠ (SPSCQueue.construct 2 : SPSCQueue Nat).writeIdx_ % 2 :=
  ⟨Reachable.construct, by decide, by decide, by decide, by decide⟩

/-- C5, amended. For every reachable state in which `push` succeeds, the `pop` that
immediately follows succeeds too; after the pair the write index and the read index are
each advanced by exactly one modulo the capacity, so their distance modulo the capacity
(the number of entries held) is what it was before the push. -/
theorem push_pop_keeps_distance {T : Type} [Inhabited T] (C : Nat)
    (hlt : C < SIZE_T_RANGE) (q : SPSCQueue T) (hq : Reachable C q) (v a : T)
    (q1 : SPSCQueue T) (hpush : q.push v = some (true, q1)) :
    ∃ v1 q2, q1.pop a = some (true, v1, q2) ∧
      q2.writeIdx_ = (q.writeIdx_ + 1) % C ∧
      q2.readIdx_ = (q.readIdx_ + 1) % C ∧
      (q2.writeIdx_ + C - q2.readIdx_) % C = (q.writeIdx_ + C - q.readIdx_) % C := by
  rcases Nat.eq_zero_or_pos C with h0 | hC
  · subst h0
    rw [reachable_zero hq] at hpush
    simp [SPSCQueue.push, SPSCQueue.pushStore, SPSCQueue.construct, SIZE_T_RANGE] at hpush
  · obtain ⟨pushed, popped, rc, pc, inv⟩ := reachable_inv hC hlt hq
    rcases push_spec hC hlt inv v with ⟨_, hp⟩ | ⟨hf, q1', hp, _, hw1, hr1, _, rc1, inv1⟩
    · rw [hp] at hpush; simp at hpush
    · rw [hp] at hpush
      simp only [Option.some.injEq, Prod.mk.injEq, true_and] at hpush
      subst hpush
      rcases pop_spec hC hlt inv1 a with ⟨he, _⟩ | ⟨_, v1, q2, hp2, _, _, _, hr2, hw2, _, pc1, inv2⟩
      · rw [hw1, hr1] at he; exact absurd he hf
      · refine ⟨v1, q2, hp2, by rw [hw2, hw1], by rw [hr2, hr1], ?_⟩
        rw [inv2.widx, inv2.ridx, inv.widx, inv.ridx,
          occupancy_mod hC inv2.pop_le, occupancy_mod hC inv.pop_le]
        simp only [List.length_append, List.length_singleton]
        congr 1
        have := inv.pop_le
        omega

theorem push_pop_keeps_distance_witness :
    (2 < SIZE_T_RANGE ∧ Reachable 2 (SPSCQueue.construct 2 : SPSCQueue Nat) ∧
      (SPSCQueue.construct 2 : SPSCQueue Nat).push 5 = some (true, fullQueue2)) ∧
    ∃ v1 q2, fullQueue2.pop 0 = some (true, v1, q2) ∧
      q2.writeIdx_ = ((SPSCQueue.construct 2 : SPSCQueue Nat).writeIdx_ + 1) % 2 ∧
      q2.readIdx_ = ((SPSCQueue.construct 2 : SPSCQueue Nat).readIdx_ + 1) % 2 ∧
      (q2.writeIdx_ + 2 - q2.readIdx_) % 2
        = ((SPSCQueue.construct 2 : SPSCQueue Nat).writeIdx_ + 2
            - (SPSCQueue.construct 2 : SPSCQueue Nat).readIdx_) % 2 :=
  ⟨⟨by decide, Reachable.construct, by decide⟩,
    push_pop_keeps_distance 2 (by decide) _ Reachable.construct 5 0 fullQueue2 (by decide)⟩

/-- C6 (frame of a successful call). In every reachable state: a `push(v)` that returns
true stores `v` in the slot at the old write index, leaves every other slot and the
number of slots as they were, sets the write index to `(writeIdx + 1) mod C` and leaves
the read index as it was; a `pop` that returns true hands out the content of the slot at
the read index, sets the read index to `(readIdx + 1) mod C` and leaves the write index
and every slot as they were. -/
theorem successful_call_frame {T : Type} [Inhabited T] (C : Nat)
    (hlt : C < SIZE_T_RANGE) (q : SPSCQueue T) (hq : Reachable C q) :
    (∀ v q1, q.push v = some (true, q1) →
      q1.data_[q.writeIdx_]? = some v ∧
      (∀ i, i ≠ q.writeIdx_ → q1.data_[i]? = q.data_[i]?) ∧
      q1.data_.length = q.data_.length ∧
      q1.writeIdx_ = (q.writeIdx_ + 1) % C ∧
      q1.readIdx_ = q.readIdx_) ∧
    (∀ a v q1, q.pop a = some (true, v, q1) →
      q.data_[q.readIdx_]? = some v ∧
      q1.readIdx_ = (q.readIdx_ + 1) % C ∧
      q1.writeIdx_ = q.writeIdx_ ∧
      q1.data_ = q.data_) := by
  rcases Nat.eq_zero_or_pos C with h0 | hC
  · subst h0
    rw [reachable_zero hq]
    constructor
    · intro v q1 hpush
      simp [SPSCQueue.push, SPSCQueue.pushStore, SPSCQueue.construct, SIZE_T_RANGE] at hpush
    · intro a v q1 hpop
      simp [SPSCQueue.pop, SPSCQueue.construct] at hpop
  · obtain ⟨pushed, popped, rc, pc, inv⟩ := reachable_inv hC hlt hq
    constructor
    · intro v q1 hpush
      rcases push_spec hC hlt inv v with ⟨_, hp⟩ | ⟨_, q1', hp, hd, hw1, hr1, _⟩
      · rw [hp] at hpush; simp at hpush
      · rw [hp] at hpush
        simp only [Option.some.injEq, Prod.mk.injEq, true_and] at hpush
        subst hpush
        have hwlt : q.writeIdx_ < q.data_.length := by
          rw [inv.widx, inv.size]; exact Nat.mod_lt _ hC
        refine ⟨?_, ?_, ?_, hw1, hr1⟩
        · rw [hd, List.getElem?_set_self hwlt]
        · intro i hi
          rw [hd, List.getElem?_set_ne (fun h => hi h.symm)]
        · rw [hd, List.length_set]
    · intro a v q1 hpop
      rcases pop_spec hC hlt inv a with ⟨_, hp⟩ | ⟨_, v1, q1', hp, hs, _, hd, hr1, hw1, _⟩
      · rw [hp] at hpop; simp at hpop
      · rw [hp] at hpop
        simp only [Option.some.injEq, Prod.mk.injEq, true_and] at hpop
        obtain ⟨hv, hq1⟩ := hpop
        subst hv; subst hq1
        exact ⟨hs, hr1, hw1, hd⟩

theorem successful_call_frame_witness :
    (2 < SIZE_T_RANGE ∧ Reachable 2 fullQueue2 ∧
      (SPSCQueue.construct 2 : SPSCQueue Nat).push 5 = some (true, fullQueue2) ∧
      fullQueue2.pop 0 = some (true, 5, drainedQueue2)) ∧
    (fullQueue2.data_[(SPSCQueue.construct 2 : SPSCQueue Nat).writeIdx_]? = some 5 ∧
      fullQueue2.writeIdx_ = ((SPSCQueue.construct 2 : SPSCQueue Nat).writeIdx_ + 1) % 2) ∧
    (fullQueue2.data_[fullQueue2.readIdx_]? = some 5 ∧
      drainedQueue2.readIdx_ = (fullQueue2.readIdx_ + 1) % 2 ∧
      drainedQueue2.writeIdx_ = fullQueue2.writeIdx_ ∧
      drainedQueue2.data_ = fullQueue2.data_) :=
  ⟨⟨by decide, Reachable.push Reachable.construct
      (show (SPSCQueue.construct 2 : SPSCQueue Nat).push 5 = some (true, fullQueue2) by decide),
      by decide, by decide⟩,
    ⟨((successful_call_frame 2 (by decide) _ Reachable.construct).1 5 fullQueue2
        (by decide)).1,
      ((successful_call_frame 2 (by decide) _ Reachable.construct).1 5 fullQueue2
        (by decide)).2.2.2.1⟩,
    (successful_call_frame 2 (by decide) fullQueue2
      (Reachable.push Reachable.construct
        (show (SPSCQueue.construct 2 : SPSCQueue Nat).push 5 = some (true, fullQueue2)
          by decide))).2 0 5 drainedQueue2 (by decide)⟩

/-! ## The read cycle -/

/-- The push loop, when it ends, has offered the same entry at every attempt and had it
accepted at the last one; the queue it leaves is the one that accepting `push` returned. -/
theorem pushUntilAccepted_returned (entry : BookBuilderGatewayToComponentQueueEntry) :
    ∀ (fuel : Nat) (q q1 : SPSCQueue BookBuilderGatewayToComponentQueueEntry)
      (effects : List Effect),
      pushUntilAccepted entry fuel q = .returned (effects, q1) →
      Effect.push entry true ∈ effects ∧
      (∀ x ∈ effects, x = Effect.push entry true ∨ x = Effect.push entry false) := by
  intro fuel
  induction fuel with
  | zero => intro q q1 effects h; simp [pushUntilAccepted] at h
  | succ n ih =>
    intro q q1 effects h
    unfold pushUntilAccepted at h
    split at h
    · simp at h
    · simp only [Outcome.returned.injEq, Prod.mk.injEq] at h
      obtain ⟨h1, _⟩ := h
      subst h1
      simp
    · rename_i q2 _
      split at h
      · rename_i effects2 q3 hrec
        simp only [Outcome.returned.injEq, Prod.mk.injEq] at h
        obtain ⟨h1, _⟩ := h
        subst h1
        obtain ⟨hin, hall⟩ := ih _ _ _ hrec
        refine ⟨List.mem_cons_of_mem _ hin, ?_⟩
        intro x hx
        rcases List.mem_cons.mp hx with hx | hx
        · exact Or.inr hx
        · exact hall x hx
      · simp at h
      · simp at h

/-- A push loop whose first attempt is accepted ends at once. -/
theorem pushUntilAccepted_accept (entry : BookBuilderGatewayToComponentQueueEntry)
    (fuel : Nat) (q q1 : SPSCQueue BookBuilderGatewayToComponentQueueEntry)
    (h : q.push entry = some (true, q1)) :
    pushUntilAccepted entry (fuel + 1) q = .returned ([Effect.push entry true], q1) := by
  simp only [pushUntilAccepted, h]

/-- A cycle that reaches the completion with a non-negative result is the decrypt and
publish part, run after the four ring calls. -/
theorem handleSocketEvent_decrypt (fuel : Nat) (world : CycleWorld)
    (w : WebSocketClientEvContext) (q : SPSCQueue BookBuilderGatewayToComponentQueueEntry)
    (hread : world.revents &&& EV_READ ≠ 0) (hsqe : world.sqeAvailable = true)
    (hsub : 0 ≤ world.submitRet) (hwait : 0 ≤ world.waitRet) (hres : 0 ≤ world.cqeRes) :
    handleSocketEvent fuel world w q = decryptAndPublish fuel world w q (ringEffects w) := by
  unfold handleSocketEvent
  simp only [if_pos hread, hsqe, Bool.not_true, Bool.false_eq_true, if_false,
    if_neg (not_lt.mpr hsub), if_neg (not_lt.mpr hwait), if_neg (not_lt.mpr hres)]

/-- A cycle that reaches the completion with a non-negative result, on a queue that
accepts the entry at the first attempt, returns after the ring calls, one `BIO_write`,
one `SSL_read`, `io_uring_cqe_seen` and that one push. -/
theorem handleSocketEvent_publishes (fuel : Nat) (world : CycleWorld)
    (w : WebSocketClientEvContext)
    (q q1 : SPSCQueue BookBuilderGatewayToComponentQueueEntry)
    (hread : world.revents &&& EV_READ ≠ 0) (hsqe : world.sqeAvailable = true)
    (hsub : 0 ≤ world.submitRet) (hwait : 0 ≤ world.waitRet) (hres : 0 ≤ world.cqeRes)
    (hpush : q.push (makeQueueEntry world (decryptedContext world w)) = some (true, q1)) :
    handleSocketEvent (fuel + 1) world w q = .returned
      { effects := ringEffects w ++ decryptEffects world w ++
          [Effect.push (makeQueueEntry world (decryptedContext world w)) true]
        context := clearedContext (decryptedContext world w)
        queue := q1 } := by
  rw [handleSocketEvent_decrypt fuel.succ world w q hread hsqe hsub hwait hres]
  simp only [decryptAndPublish, pushUntilAccepted_accept _ fuel q q1 hpush]

/-- Every accepted push of a returned cycle offers the entry built from the context after
`SSL_read` and the instants of the cycle. -/
theorem handleSocketEvent_pushed (fuel : Nat) (world : CycleWorld)
    (w : WebSocketClientEvContext) (q : SPSCQueue BookBuilderGatewayToComponentQueueEntry)
    (r : CycleResult) (e : BookBuilderGatewayToComponentQueueEntry) (b : Bool)
    (hret : handleSocketEvent fuel world w q = .returned r)
    (hpush : Effect.push e b ∈ r.effects) :
    e = makeQueueEntry world (decryptedContext world w) ∧ 0 ≤ world.cqeRes := by
  unfold handleSocketEvent at hret
  split at hret
  · split at hret
    · simp only [Outcome.returned.injEq] at hret
      subst hret
      simp at hpush
    · split at hret
      · simp only [Outcome.returned.injEq] at hret
        subst hret
        simp at hpush
      · split at hret
        · simp only [Outcome.returned.injEq] at hret
          subst hret
          simp [ringEffects] at hpush
        · split at hret
          · simp only [Outcome.returned.injEq] at hret
            subst hret
            simp [ringEffects] at hpush
          · rename_i hres
            refine ⟨?_, not_lt.mp hres⟩
            unfold decryptAndPublish at hret
            dsimp only at hret
            split at hret
            · rename_i pushes q1 hloop
              simp only [Outcome.returned.injEq] at hret
              subst hret
              obtain ⟨_, hall⟩ := pushUntilAccepted_returned _ _ _ _ _ hloop
              simp only [List.mem_append] at hpush
              rcases hpush with (hpush | hpush) | hpush
              · simp [ringEffects] at hpush
              · simp [decryptEffects] at hpush
              · rcases hall _ hpush with h | h
                · simp only [Effect.push.injEq] at h; exact h.1
                · simp only [Effect.push.injEq] at h; exact h.1
            · simp at hret
            · simp at hret
  · simp only [Outcome.returned.injEq] at hret
    subst hret
    simp at hpush
/-- On a freshly constructed queue of capacity 2 the first push is accepted. -/
theorem construct_two_push {T : Type} [Inhabited T] (e : T) :
    (SPSCQueue.construct 2 : SPSCQueue T).push e =
      some (true, { data_ := [e, default], readIdx_ := 0, writeIdxCached_ := 0,
                    writeIdx_ := 1, readIdxCached_ := 0 }) := by
  rfl

theorem decryptedContext_fields (world : CycleWorld) (w : WebSocketClientEvContext) :
    (decryptedContext world w).decryptedReadBuffer
        = overwrite w.decryptedReadBuffer world.plaintext ∧
    (decryptedContext world w).decryptedReadBufferSize = w.decryptedReadBufferSize ∧
    (decryptedContext world w).ctrlBuf = world.control.getD w.ctrlBuf := by
  unfold decryptedContext
  dsimp only
  split <;> exact ⟨rfl, rfl, rfl⟩

/-- Bytes written at the start of a buffer that has room for them are read back by taking
as many bytes from the copy of the buffer. -/
theorem take_overwrite (buffer bytes : List Byte) (size : Nat)
    (hfit : bytes.length ≤ buffer.length) (hsize : bytes.length ≤ size) :
    ((overwrite buffer bytes).take size).take bytes.length = bytes := by
  unfold overwrite
  rw [List.take_take, Nat.min_eq_left hsize, List.take_of_length_le hfit,
    List.take_left']
  rfl

/-- C7, as stated, fails. A cycle in which `recvmsg` completes with 5 bytes and `SSL_read`
returns 0 ends with an entry pushed onto a fresh queue of capacity 2, and the entry's
`decryptedBytesRead` is 0; the same cycle with `SSL_read` returning -1 pushes an entry
whose `decryptedBytesRead` is -1. -/
theorem nonpositive_read_pushes_entry :
    (zeroReadWorld.sslReadRet = 0 ∧
      handleSocketEvent 1 zeroReadWorld (WebSocketClientEvContext.create 7 0)
          (SPSCQueue.construct 2) = .returned
        { effects := ringEffects (WebSocketClientEvContext.create 7 0) ++
            decryptEffects zeroReadWorld (WebSocketClientEvContext.create 7 0) ++
            [Effect.push (makeQueueEntry zeroReadWorld
              (decryptedContext zeroReadWorld (WebSocketClientEvContext.create 7 0))) true]
          context := clearedContext
            (decryptedContext zeroReadWorld (WebSocketClientEvContext.create 7 0))
          queue :=
            { data_ := [makeQueueEntry zeroReadWorld
                (decryptedContext zeroReadWorld (WebSocketClientEvContext.create 7 0)), default]
              readIdx_ := 0, writeIdxCached_ := 0, writeIdx_ := 1, readIdxCached_ := 0 } } ∧
      (makeQueueEntry zeroReadWorld
        (decryptedContext zeroReadWorld
          (WebSocketClientEvContext.create 7 0))).decryptedBytesRead = 0) ∧
    (failedReadWorld.sslReadRet = -1 ∧
      handleSocketEvent 1 failedReadWorld (WebSocketClientEvContext.create 7 0)
          (SPSCQueue.construct 2) = .returned
        { effects := ringEffects (WebSocketClientEvContext.create 7 0) ++
            decryptEffects failedReadWorld (WebSocketClientEvContext.create 7 0) ++
            [Effect.push (makeQueueEntry failedReadWorld
              (decryptedContext failedReadWorld (WebSocketClientEvContext.create 7 0))) true]
          context := clearedContext
            (decryptedContext failedReadWorld (WebSocketClientEvContext.create 7 0))
          queue :=
            { data_ := [makeQueueEntry failedReadWorld
                (decryptedContext failedReadWorld (WebSocketClientEvContext.create 7 0)), default]
              readIdx_ := 0, writeIdxCached_ := 0, writeIdx_ := 1, readIdxCached_ := 0 } } ∧
      (makeQueueEntry failedReadWorld
        (decryptedContext failedReadWorld
          (WebSocketClientEvContext.create 7 0))).decryptedBytesRead = -1) :=
  ⟨⟨rfl, handleSocketEvent_publishes 0 zeroReadWorld _ _ _ (by decide) rfl (by decide)
      (by decide) (by decide) (construct_two_push _), rfl⟩,
    ⟨rfl, handleSocketEvent_publishes 0 failedReadWorld _ _ _ (by decide) rfl (by decide)
      (by decide) (by decide) (construct_two_push _), rfl⟩⟩

/-- C7, amended. For every read cycle whose ring completion is non-negative, whatever
length `SSL_read` yields (0 and negative lengths included): a cycle that returns has
pushed an entry onto the queue, and every entry it pushed has `decryptedBytesRead` equal
to the length `SSL_read` returned; and when the queue accepts the entry at the first
attempt, the cycle does return, leaving the queue that the accepting `push` returned. -/
theorem read_result_is_published (fuel : Nat) (world : CycleWorld)
    (w : WebSocketClientEvContext) (q : SPSCQueue BookBuilderGatewayToComponentQueueEntry)
    (hread : world.revents &&& EV_READ ≠ 0) (hsqe : world.sqeAvailable = true)
    (hsub : 0 ≤ world.submitRet) (hwait : 0 ≤ world.waitRet) (hres : 0 ≤ world.cqeRes) :
    (∀ r, handleSocketEvent fuel world w q = .returned r →
      (∃ e, Effect.push e true ∈ r.effects) ∧
      (∀ e, Effect.push e true ∈ r.effects → e.decryptedBytesRead = world.sslReadRet)) ∧
    (∀ q1, q.push (makeQueueEntry world (decryptedContext world w)) = some (true, q1) →
      ∃ r, handleSocketEvent (fuel + 1) world w q = .returned r ∧ r.queue = q1 ∧
        ∃ e, Effect.push e true ∈ r.effects) := by
  constructor
  · intro r hret
    constructor
    · rw [handleSocketEvent_decrypt fuel world w q hread hsqe hsub hwait hres] at hret
      unfold decryptAndPublish at hret
      dsimp only at hret
      split at hret
      · rename_i pushes q1 hloop
        simp only [Outcome.returned.injEq] at hret
        subst hret
        obtain ⟨hin, _⟩ := pushUntilAccepted_returned _ _ _ _ _ hloop
        exact ⟨_, List.mem_append_right _ hin⟩
      · simp at hret
      · simp at hret
    · intro e he
      rw [(handleSocketEvent_pushed fuel world w q r e true hret he).1]
      rfl
  · intro q1 hpush
    refine ⟨_, handleSocketEvent_publishes fuel world w q q1 hread hsqe hsub hwait hres hpush,
      rfl, makeQueueEntry world (decryptedContext world w), ?_⟩
    exact List.mem_append_right _ (List.mem_singleton_self _)

theorem read_result_is_published_witness :
    (zeroReadWorld.revents &&& EV_READ ≠ 0 ∧ zeroReadWorld.sqeAvailable = true ∧
      0 ≤ zeroReadWorld.submitRet ∧ 0 ≤ zeroReadWorld.waitRet ∧ 0 ≤ zeroReadWorld.cqeRes ∧
      zeroReadWorld.sslReadRet = 0) ∧
    ∃ r, handleSocketEvent 1 zeroReadWorld (WebSocketClientEvContext.create 7 0)
        (SPSCQueue.construct 2) = .returned r ∧
      r.queue = { data_ := [makeQueueEntry zeroReadWorld
                    (decryptedContext zeroReadWorld (WebSocketClientEvContext.create 7 0)),
                    default]
                  readIdx_ := 0, writeIdxCached_ := 0, writeIdx_ := 1, readIdxCached_ := 0 } ∧
      ∃ e, Effect.push e true ∈ r.effects :=
  ⟨⟨by decide, rfl, by decide, by decide, by decide, rfl⟩,
    (read_result_is_published 0 zeroReadWorld (WebSocketClientEvContext.create 7 0)
      (SPSCQueue.construct 2) (by decide) rfl (by decide) (by decide) (by decide)).2 _
      (construct_two_push _)⟩

/-- C8 (negative ring completion). For every invocation of `handleSocketEvent` whose
completion result `cqe->res` is negative: the invocation returns, none of its calls is a
`BIO_write`, an `SSL_read` or a queue `push`, and the queue after it is the queue before
it. -/
theorem negative_completion_skips (fuel : Nat) (world : CycleWorld)
    (w : WebSocketClientEvContext) (q : SPSCQueue BookBuilderGatewayToComponentQueueEntry)
    (hres : world.cqeRes < 0) :
    ∃ r, handleSocketEvent fuel world w q = .returned r ∧
      r.queue = q ∧
      ∀ x ∈ r.effects,
        (∀ c bytes, x ≠ Effect.BIO_write c bytes) ∧
        (∀ c num, x ≠ Effect.SSL_read c num) ∧
        (∀ e b, x ≠ Effect.push e b) := by
  unfold handleSocketEvent
  dsimp only
  split
  · split
    · exact ⟨_, rfl, rfl, by simp⟩
    · split
      · exact ⟨_, rfl, rfl, by simp⟩
      · split
        · exact ⟨_, rfl, rfl, by simp [ringEffects]⟩
        · exact ⟨_, rfl, rfl, by simp [ringEffects]⟩
  · exact ⟨_, rfl, rfl, by simp⟩

theorem negative_completion_skips_witness :
    failedRecvWorld.cqeRes < 0 ∧
    ∃ r, handleSocketEvent 1 failedRecvWorld (WebSocketClientEvContext.create 7 0)
        (SPSCQueue.construct 2) = .returned r ∧
      r.queue = SPSCQueue.construct 2 ∧
      ∀ x ∈ r.effects,
        (∀ c bytes, x ≠ Effect.BIO_write c bytes) ∧
        (∀ c num, x ≠ Effect.SSL_read c num) ∧
        (∀ e b, x ≠ Effect.push e b) :=
  ⟨by decide, negative_completion_skips 1 failedRecvWorld _ _ (by decide)⟩

/-- What every pushed entry holds. For every returned read cycle and every entry it
pushed: `decryptedBytesRead` is the length `SSL_read` returned; the first
`decryptedBytesRead` bytes of the entry are the bytes `SSL_read` placed in
`decryptedReadBuffer`; the socket-rx timestamp is composed from the first control message
found in `ctrlBuf` once the `recvmsg` had completed, be it the message of this completion
or, when this completion placed none, the message an earlier one left there; and the
poll, read-completion and decryption-completion timestamps are the three clock readings
of the cycle. -/
theorem entry_carries_cycle_data (fuel : Nat) (world : CycleWorld)
    (w : WebSocketClientEvContext) (q : SPSCQueue BookBuilderGatewayToComponentQueueEntry)
    (r : CycleResult) (e : BookBuilderGatewayToComponentQueueEntry)
    (hw : w.WellFormed) (hssl : world.SslReadContract w.decryptedReadBufferSize)
    (hret : handleSocketEvent fuel world w q = .returned r)
    (hpush : Effect.push e true ∈ r.effects) :
    e.decryptedBytesRead = world.sslReadRet ∧
    e.decryptedReadBuffer.take world.sslReadRet.toNat = world.plaintext ∧
    e.marketUpdateSocketRxTimestamp = socketRxTimestamp (world.control.getD w.ctrlBuf) ∧
    e.marketUpdatePollTimestamp = world.pollNow ∧
    e.marketUpdateReadCompletionTimestamp = world.readCompletionNow ∧
    e.marketUpdateDecryptionCompletionTimestamp = world.decryptionNow := by
  obtain ⟨he, _⟩ := handleSocketEvent_pushed fuel world w q r e true hret hpush
  obtain ⟨hbuf, hsize, hctrl⟩ := decryptedContext_fields world w
  obtain ⟨_, _, hlen, hnum⟩ := hw
  subst he
  refine ⟨rfl, ?_, ?_, rfl, rfl, rfl⟩
  · show ((decryptedContext world w).decryptedReadBuffer.take
      (decryptedContext world w).decryptedReadBufferSize).take world.sslReadRet.toNat
        = world.plaintext
    rw [hbuf, hsize]
    rcases lt_or_le 0 world.sslReadRet with hpos | hneg
    · obtain ⟨hl, hle⟩ := hssl.1 hpos
      have hn : world.sslReadRet.toNat = world.plaintext.length := by omega
      rw [hn]
      exact take_overwrite _ _ _ (by rw [hlen, ← hnum]; exact hle) hle
    · rw [hssl.2 hneg, Int.toNat_of_nonpos hneg]
      rfl
  · show socketRxTimestamp (decryptedContext world w).ctrlBuf = _
    rw [hctrl]

/-- The context created for a connection has the shape every context has. -/
theorem create_wellFormed (sockfd : Int) (connectionIdx : Nat) :
    (WebSocketClientEvContext.create sockfd connectionIdx).WellFormed :=
  ⟨List.length_replicate _ _, rfl, List.length_replicate _ _, rfl⟩

theorem entry_carries_cycle_data_witness :
    ((WebSocketClientEvContext.create 7 0).WellFormed ∧
      plainReadWorld.SslReadContract (WebSocketClientEvContext.create 7 0).decryptedReadBufferSize ∧
      handleSocketEvent 1 plainReadWorld (WebSocketClientEvContext.create 7 0)
          (SPSCQueue.construct 2) = .returned
        { effects := ringEffects (WebSocketClientEvContext.create 7 0) ++
            decryptEffects plainReadWorld (WebSocketClientEvContext.create 7 0) ++
            [Effect.push (makeQueueEntry plainReadWorld
              (decryptedContext plainReadWorld (WebSocketClientEvContext.create 7 0))) true]
          context := clearedContext
            (decryptedContext plainReadWorld (WebSocketClientEvContext.create 7 0))
          queue :=
            { data_ := [makeQueueEntry plainReadWorld
                (decryptedContext plainReadWorld (WebSocketClientEvContext.create 7 0)), default]
              readIdx_ := 0, writeIdxCached_ := 0, writeIdx_ := 1, readIdxCached_ := 0 } }) ∧
    ((makeQueueEntry plainReadWorld
        (decryptedContext plainReadWorld
          (WebSocketClientEvContext.create 7 0))).decryptedBytesRead = 3 ∧
      (makeQueueEntry plainReadWorld
        (decryptedContext plainReadWorld
          (WebSocketClientEvContext.create 7 0))).decryptedReadBuffer.take 3 = [9, 8, 7] ∧
      (makeQueueEntry plainReadWorld
        (decryptedContext plainReadWorld
          (WebSocketClientEvContext.create 7 0))).marketUpdateSocketRxTimestamp
        = socketRxTimestamp
            { cmsg_level := 1, cmsg_type := 29, tv_sec := 1700000000, tv_usec := 123456 } ∧
      (makeQueueEntry plainReadWorld
        (decryptedContext plainReadWorld
          (WebSocketClientEvContext.create 7 0))).marketUpdatePollTimestamp = 100 ∧
      (makeQueueEntry plainReadWorld
        (decryptedContext plainReadWorld
          (WebSocketClientEvContext.create 7 0))).marketUpdateReadCompletionTimestamp = 200 ∧
      (makeQueueEntry plainReadWorld
        (decryptedContext plainReadWorld
          (WebSocketClientEvContext.create 7 0))).marketUpdateDecryptionCompletionTimestamp
        = 300) :=
  ⟨⟨create_wellFormed 7 0,
      ⟨fun _ => ⟨rfl, by decide⟩, fun h => absurd h (by decide)⟩,
      handleSocketEvent_publishes 0 plainReadWorld _ _ _ (by decide) rfl (by decide)
        (by decide) (by decide) (construct_two_push _)⟩,
    entry_carries_cycle_data 1 plainReadWorld (WebSocketClientEvContext.create 7 0)
      (SPSCQueue.construct 2) _ _
      (create_wellFormed 7 0)
      (⟨fun _ => ⟨rfl, by decide⟩, fun h => absurd h (by decide)⟩)
      (handleSocketEvent_publishes 0 plainReadWorld _ _ _ (by decide) rfl (by decide)
        (by decide) (by decide) (construct_two_push _))
      (List.mem_append_right _ (List.mem_singleton_self _))⟩
/-! ## The subscription frame -/

theorem connectionConfig_bitmex (b : BuildFlags)
    (hvenue : b.USE_BITMEX_EXCHANGE = true ∨ b.USE_BITMEX_TESTNET_EXCHANGE = true) :
    connectionConfig b = some (3, currencyPairsBitmex) := by
  unfold connectionConfig
  rcases hvenue with h | h <;> simp [h]

theorem subscriptionMessage_bitmex (b : BuildFlags)
    (hvenue : b.USE_BITMEX_EXCHANGE = true ∨ b.USE_BITMEX_TESTNET_EXCHANGE = true)
    (i : Nat) (sym : String) (hsym : currencyPairsBitmex[i]? = some sym) :
    subscriptionMessage b i =
      some ("\x7b\"op\":\"subscribe\",\"args\":[\"orderBookL2_25:" ++ sym ++ "\"]\x7d") := by
  have hv : (b.USE_BITMEX_EXCHANGE || b.USE_BITMEX_TESTNET_EXCHANGE) = true := by
    rcases hvenue with h | h <;> simp [h]
  unfold subscriptionMessage currencyPairs_
  rw [if_pos hv, connectionConfig_bitmex b hvenue]
  simp only [Option.map_some', hsym]

/-- C10 (BitMEX subscribe frame). In a build with `USE_BITMEX_EXCHANGE` or
`USE_BITMEX_TESTNET_EXCHANGE` defined and no mock venue defined, for every connection
index `i` below `NUMBER_OF_CONNECTIONS`: `currencyPairs_[i]` exists, the established
callback hands exactly one text frame to `lws_write`, that frame is the string
`{"op":"subscribe","args":["orderBookL2_25:<SYM>"]}` with `currencyPairs_[i]` for `<SYM>`,
and among the symbols of `currencyPairs_` it contains the one of connection `i` and no
other. -/
theorem bitmex_subscribe_frame (b : BuildFlags) (st : CallbackState) (n i : Nat)
    (hvenue : b.USE_BITMEX_EXCHANGE = true ∨ b.USE_BITMEX_TESTNET_EXCHANGE = true)
    (hmock : b.USE_BITMEX_MOCK_EXCHANGE = false ∧ b.USE_KRAKEN_MOCK_EXCHANGE = false)
    (hn : NUMBER_OF_CONNECTIONS b = some n) (hi : i < n) :
    ∃ pairs sym r,
      currencyPairs_ b = some pairs ∧ pairs[i]? = some sym ∧
      bookBuilderLwsCallback b st i .LWS_CALLBACK_CLIENT_ESTABLISHED = some r ∧
      r.textFrames =
        ["\x7b\"op\":\"subscribe\",\"args\":[\"orderBookL2_25:" ++ sym ++ "\"]\x7d"] ∧
      ∀ j other, j < n → pairs[j]? = some other →
        (other.toList <:+:
          ("\x7b\"op\":\"subscribe\",\"args\":[\"orderBookL2_25:" ++ sym ++ "\"]\x7d").toList
          ↔ j = i) := by
  have hcfg := connectionConfig_bitmex b hvenue
  have hn3 : n = 3 := by
    unfold NUMBER_OF_CONNECTIONS at hn
    rw [hcfg] at hn
    simpa using hn.symm
  subst hn3
  have hcall : ∀ sym, currencyPairsBitmex[i]? = some sym →
      bookBuilderLwsCallback b st i .LWS_CALLBACK_CLIENT_ESTABLISHED = some
        { state := { st with interrupted := st.interrupted.set i 1 }
          textFrames :=
            ["\x7b\"op\":\"subscribe\",\"args\":[\"orderBookL2_25:" ++ sym ++ "\"]\x7d"] } := by
    intro sym hsym
    unfold bookBuilderLwsCallback NUMBER_OF_CONNECTIONS
    rw [hcfg]
    simp only [Option.map_some', if_pos hi, hmock.1, hmock.2, Bool.not_false, Bool.and_self,
      if_true, subscriptionMessage_bitmex b hvenue i sym hsym]
  have hpairs : currencyPairs_ b = some currencyPairsBitmex := by
    unfold currencyPairs_; rw [hcfg]; rfl
  have hall : ∀ sym, currencyPairsBitmex[i]? = some sym →
      (∀ j other, j < 3 → currencyPairsBitmex[j]? = some other →
        (other.toList <:+:
          ("\x7b\"op\":\"subscribe\",\"args\":[\"orderBookL2_25:" ++ sym ++ "\"]\x7d").toList
          ↔ j = i)) := by
    intro sym hsym j other hj hother
    interval_cases i <;> interval_cases j <;>
      (simp only [currencyPairsBitmex, List.getElem?_cons_zero, List.getElem?_cons_succ,
          Option.some.injEq] at hsym hother
       subst hsym; subst hother
       decide)
  have hex : ∃ sym, currencyPairsBitmex[i]? = some sym := by
    interval_cases i <;> exact ⟨_, rfl⟩
  obtain ⟨sym, hsym⟩ := hex
  exact ⟨currencyPairsBitmex, sym, _, hpairs, hsym, hcall sym hsym, rfl, hall sym hsym⟩

theorem bitmex_subscribe_frame_witness :
    ((bitmexBuild.USE_BITMEX_EXCHANGE = true ∨ bitmexBuild.USE_BITMEX_TESTNET_EXCHANGE = true) ∧
      (bitmexBuild.USE_BITMEX_MOCK_EXCHANGE = false ∧
        bitmexBuild.USE_KRAKEN_MOCK_EXCHANGE = false) ∧
      NUMBER_OF_CONNECTIONS bitmexBuild = some 3 ∧ 1 < 3) ∧
    ∃ pairs sym r,
      currencyPairs_ bitmexBuild = some pairs ∧ pairs[1]? = some sym ∧
      bookBuilderLwsCallback bitmexBuild
        { clientWsis := [true, true, true], interrupted := [1, 0, 0] } 1
        .LWS_CALLBACK_CLIENT_ESTABLISHED = some r ∧
      r.textFrames =
        ["\x7b\"op\":\"subscribe\",\"args\":[\"orderBookL2_25:" ++ sym ++ "\"]\x7d"] ∧
      ∀ j other, j < 3 → pairs[j]? = some other →
        (other.toList <:+:
          ("\x7b\"op\":\"subscribe\",\"args\":[\"orderBookL2_25:" ++ sym ++ "\"]\x7d").toList
          ↔ j = 1) :=
  ⟨⟨Or.inl rfl, ⟨rfl, rfl⟩, by decide, by decide⟩,
    bitmex_subscribe_frame bitmexBuild _ 3 1 (Or.inl rfl) ⟨rfl, rfl⟩ (by decide) (by decide)⟩

/-! ## Index invariant and usable capacity -/

/-- C15 (index invariant, in-bounds slot access). For every capacity `C ≥ 1`, in every
state reachable from construction: `readIdx < C` and `writeIdx < C`, with `C` slots
allocated; `push` and `pop` complete without touching a slot outside `data_`; a successful
`push` writes the slot at `writeIdx`, which is allocated, and moves the write index to
exactly `(writeIdx + 1) mod C`, and it happens only when `(writeIdx + 1) mod C ≠ readIdx`
(otherwise no slot changes); a successful `pop` reads the slot at `readIdx`, which is
allocated, and moves the read index to exactly `(readIdx + 1) mod C`. -/
theorem index_invariant_in_bounds {T : Type} [Inhabited T] (C : Nat) (hC : 1 ≤ C)
    (hlt : C < SIZE_T_RANGE) (q : SPSCQueue T) (hq : Reachable C q) (v a : T) :
    q.readIdx_ < C ∧ q.writeIdx_ < C ∧ q.data_.length = C ∧
    (∃ b q1, q.push v = some (b, q1) ∧
      (b = true → q1.writeIdx_ = (q.writeIdx_ + 1) % C ∧
        (q.writeIdx_ + 1) % C ≠ q.readIdx_ ∧ q.writeIdx_ < q.data_.length) ∧
      ((q.writeIdx_ + 1) % C = q.readIdx_ → b = false ∧ q1.data_ = q.data_)) ∧
    (∃ b v1 q1, q.pop a = some (b, v1, q1) ∧
      (b = true → q1.readIdx_ = (q.readIdx_ + 1) % C ∧ q.readIdx_ < q.data_.length)) := by
  obtain ⟨pushed, popped, rc, pc, inv⟩ := reachable_inv hC hlt hq
  have hr : q.readIdx_ < C := by rw [inv.ridx]; exact Nat.mod_lt _ hC
  have hw : q.writeIdx_ < C := by rw [inv.widx]; exact Nat.mod_lt _ hC
  refine ⟨hr, hw, inv.size, ?_, ?_⟩
  · rcases push_spec hC hlt inv v with ⟨hf, hp⟩ | ⟨hf, q1, hp, _, hw1, _⟩
    · exact ⟨false, q, hp, by simp, fun _ => ⟨rfl, rfl⟩⟩
    · exact ⟨true, q1, hp, fun _ => ⟨hw1, hf, by rw [inv.size]; exact hw⟩,
        fun h => absurd h hf⟩
  · rcases pop_spec hC hlt inv a with ⟨_, hp⟩ | ⟨_, v1, q1, hp, _, _, _, hr1, _⟩
    · exact ⟨false, a, q, hp, by simp⟩
    · exact ⟨true, v1, q1, hp, fun _ => ⟨hr1, by rw [inv.size]; exact hr⟩⟩

theorem index_invariant_in_bounds_witness :
    (1 ≤ 2 ∧ 2 < SIZE_T_RANGE ∧ Reachable 2 fullQueue2) ∧
    (fullQueue2.readIdx_ < 2 ∧ fullQueue2.writeIdx_ < 2 ∧ fullQueue2.data_.length = 2 ∧
    (∃ b q1, fullQueue2.push 9 = some (b, q1) ∧
      (b = true → q1.writeIdx_ = (fullQueue2.writeIdx_ + 1) % 2 ∧
        (fullQueue2.writeIdx_ + 1) % 2 ≠ fullQueue2.readIdx_ ∧
        fullQueue2.writeIdx_ < fullQueue2.data_.length) ∧
      ((fullQueue2.writeIdx_ + 1) % 2 = fullQueue2.readIdx_ →
        b = false ∧ q1.data_ = fullQueue2.data_)) ∧
    (∃ b v1 q1, fullQueue2.pop 0 = some (b, v1, q1) ∧
      (b = true → q1.readIdx_ = (fullQueue2.readIdx_ + 1) % 2 ∧
        fullQueue2.readIdx_ < fullQueue2.data_.length))) :=
  ⟨⟨by decide, by decide, Reachable.push Reachable.construct
      (show (SPSCQueue.construct 2 : SPSCQueue Nat).push 5 = some (true, fullQueue2) by decide)⟩,
    index_invariant_in_bounds 2 (by decide) (by decide) fullQueue2
      (Reachable.push Reachable.construct
        (show (SPSCQueue.construct 2 : SPSCQueue Nat).push 5 = some (true, fullQueue2)
          by decide)) 9 0⟩

/-- Consecutive pushes that together would bring the number of entries held to the
capacity: all are accepted but the last. -/
theorem pushAll_fills {T : Type} {C : Nat} (hC : 0 < C) (hlt : C < SIZE_T_RANGE) :
    ∀ (vs : List T) (q : SPSCQueue T) (pushed popped : List T) (rc pc : Nat),
      Inv C q pushed popped rc pc → vs ≠ [] →
      pushed.length + vs.length = popped.length + C →
      ∃ q1, pushAll q vs = some (List.replicate (vs.length - 1) true ++ [false], q1) := by
  intro vs
  induction vs with
  | nil => intro q pushed popped rc pc _ hne; exact absurd rfl hne
  | cons v rest ih =>
    intro q pushed popped rc pc inv _ hsum
    simp only [List.length_cons] at hsum
    have hple := inv.pop_le
    rcases push_spec hC hlt inv v with ⟨hf, hp⟩ | ⟨hf, q1, hp, _, _, _, _, rc1, inv1⟩
    · -- the queue is full: this must be the last push
      have hfull : (pushed.length + 1) % C = popped.length % C := by
        rw [← inv.ridx, ← hf, inv.widx, Nat.mod_add_mod]
      have hgap : pushed.length + 1 = popped.length + C :=
        gap_eq_of_mod_eq (by omega) (by have := inv.room; omega) hfull
      have hrest : rest = [] := List.eq_nil_of_length_eq_zero (by omega)
      subst hrest
      exact ⟨q, by simp [pushAll, hp]⟩
    · -- there is room: the remaining pushes are not empty
      have hnotfull : (pushed.length + 1) % C ≠ popped.length % C := by
        have hw : (q.writeIdx_ + 1) % C = (pushed.length + 1) % C := by
          rw [inv.widx, Nat.mod_add_mod]
        rw [← inv.ridx, ← hw]; exact hf
      have hne : rest ≠ [] := by
        intro h
        subst h
        apply hnotfull
        simp only [List.length_nil] at hsum
        rw [show pushed.length + 1 = popped.length + C by omega]
        simp
      have hlen : 0 < rest.length := List.length_pos.mpr hne
      obtain ⟨q2, h2⟩ := ih q1 (pushed ++ [v]) popped rc1 pc inv1 hne
        (by simp only [List.length_append, List.length_singleton]; omega)
      refine ⟨q2, ?_⟩
      simp only [pushAll, hp, h2, List.length_cons, Nat.add_sub_cancel]
      have : rest.length = (rest.length - 1) + 1 := by omega
      conv_rhs => rw [this, List.replicate_succ]
      rfl

/-- C17 (usable capacity). For every capacity `C ≥ 1`: from any empty reachable state (the
freshly constructed queue among them), `C` consecutive pushes return true for the first
`C - 1` and false for the `C`-th; in every run from construction the number of entries
held (accepted pushes not yet popped) is `(writeIdx - readIdx) mod C` and at most
`C - 1`; and a queue of capacity 1 refuses every push. -/
theorem usable_capacity {T : Type} [Inhabited T] (C : Nat) (hC : 1 ≤ C)
    (hlt : C < SIZE_T_RANGE) :
    (∀ (q : SPSCQueue T), Reachable C q → q.writeIdx_ = q.readIdx_ →
      ∀ vs : List T, vs.length = C →
        ∃ q1, pushAll q vs = some (List.replicate (C - 1) true ++ [false], q1)) ∧
    (∀ (calls : List (QueueCall T)) (h : History T), runCalls C calls = some h →
      h.pushed.length - h.popped.length = (h.queue.writeIdx_ + C - h.queue.readIdx_) % C ∧
      (h.queue.writeIdx_ + C - h.queue.readIdx_) % C ≤ C - 1) ∧
    (C = 1 → ∀ (q : SPSCQueue T), Reachable C q → ∀ v, q.push v = some (false, q)) := by
  refine ⟨?_, ?_, ?_⟩
  · intro q hq hempty vs hvs
    obtain ⟨pushed, popped, rc, pc, inv⟩ := reachable_inv hC hlt hq
    have hPR : pushed.length = popped.length := by
      by_contra hne
      have hple := inv.pop_le
      have hroom := inv.room
      exact mod_ne_of_gap (C := C) (i := popped.length) (j := pushed.length)
        (by omega) (by omega) (by rw [← inv.ridx, ← inv.widx]; exact hempty.symm)
    have hne : vs ≠ [] := by
      intro h; subst h; simp at hvs; omega
    obtain ⟨q1, h1⟩ := pushAll_fills hC hlt vs q pushed popped rc pc inv hne (by omega)
    exact ⟨q1, by rw [h1, hvs]⟩
  · intro calls h hrun
    obtain ⟨h1, rc, pc, hrun1, inv⟩ :=
      run_inv (C := C) hC hlt calls
        { queue := SPSCQueue.construct C, pushed := [], popped := [] } 0 0 (inv_construct C)
    have he : h1 = h := by
      unfold runCalls at hrun
      rw [hrun1] at hrun
      exact Option.some.inj hrun
    subst he
    have hocc : (h1.queue.writeIdx_ + C - h1.queue.readIdx_) % C
        = h1.pushed.length - h1.popped.length := by
      rw [inv.widx, inv.ridx, occupancy_mod hC inv.pop_le]
      exact Nat.mod_eq_of_lt (by have := inv.room; have := inv.pop_le; omega)
    rw [hocc]
    exact ⟨rfl, by have := inv.room; omega⟩
  · intro h1 q hq v
    subst h1
    obtain ⟨pushed, popped, rc, pc, inv⟩ := reachable_inv hC hlt hq
    rcases push_spec hC hlt inv v with ⟨_, hp⟩ | ⟨hf, _⟩
    · exact hp
    · exfalso
      apply hf
      rw [Nat.mod_one, inv.ridx, Nat.mod_one]

theorem usable_capacity_witness :
    (1 ≤ 2 ∧ 2 < SIZE_T_RANGE ∧ Reachable 2 (SPSCQueue.construct 2 : SPSCQueue Nat) ∧
      (SPSCQueue.construct 2 : SPSCQueue Nat).writeIdx_
        = (SPSCQueue.construct 2 : SPSCQueue Nat).readIdx_ ∧
      [5, 6].length = 2) ∧
    ∃ q1, pushAll (SPSCQueue.construct 2 : SPSCQueue Nat) [5, 6]
      = some (List.replicate (2 - 1) true ++ [false], q1) :=
  ⟨⟨by decide, by decide, Reachable.construct, rfl, rfl⟩,
    (usable_capacity 2 (by decide) (by decide)).1 _ Reachable.construct rfl [5, 6] rfl⟩

/-! ## The kernel receive timestamp -/

/-- Within the range of a signed 64-bit integer, `wrapInt64` changes nothing. -/
theorem wrapInt64_of_range (x : Int) (hlo : -9223372036854775808 ≤ x)
    (hhi : x < 9223372036854775808) : wrapInt64 x = x := by
  unfold wrapInt64
  omega

/-- The instant composed from a `SOL_SOCKET` / `SCM_TIMESTAMP` control message whose
`timeval` is representable in the clock's signed 64-bit nanoseconds. -/
theorem socketRxTimestamp_timestamp (c : ControlMessage)
    (hlevel : c.cmsg_level = SOL_SOCKET) (htype : c.cmsg_type = SCM_TIMESTAMP)
    (hsec_lo : -9223372036 ≤ c.tv_sec) (hsec_hi : c.tv_sec ≤ 9223372035)
    (husec_lo : 0 ≤ c.tv_usec) (husec_hi : c.tv_usec < 1000000) :
    socketRxTimestamp c = (c.tv_sec * 1000000 + c.tv_usec) * 1000 := by
  unfold socketRxTimestamp
  rw [if_pos ⟨hlevel, htype⟩,
    wrapInt64_of_range (c.tv_sec * 1000000000) (by omega) (by omega),
    wrapInt64_of_range (c.tv_usec * 1000) (by omega) (by omega),
    wrapInt64_of_range _ (by omega) (by omega)]
  ring

/-- C16 (kernel receive timestamp). For every returned read cycle whose completed
`recvmsg` placed a first control message `c` in `ctrlBuf`, and every entry the cycle
pushed: when `c` has level `SOL_SOCKET` and type `SCM_TIMESTAMP` and carries a `timeval`
that the clock's signed 64-bit nanosecond count can represent (`tv_usec` a count of
microseconds below one second), the entry's socket-rx timestamp is exactly
`tv_sec * 1000000 + tv_usec` microseconds after the epoch (held as that many thousand
nanoseconds); when `c` is of any other level or type, it is the epoch, 0. -/
theorem kernel_timestamp_composition (fuel : Nat) (world : CycleWorld)
    (w : WebSocketClientEvContext) (q : SPSCQueue BookBuilderGatewayToComponentQueueEntry)
    (r : CycleResult) (e : BookBuilderGatewayToComponentQueueEntry) (c : ControlMessage)
    (hctl : world.control = some c)
    (hret : handleSocketEvent fuel world w q = .returned r)
    (hpush : Effect.push e true ∈ r.effects) :
    (c.cmsg_level = SOL_SOCKET ∧ c.cmsg_type = SCM_TIMESTAMP →
      -9223372036 ≤ c.tv_sec → c.tv_sec ≤ 9223372035 →
      0 ≤ c.tv_usec → c.tv_usec < 1000000 →
      e.marketUpdateSocketRxTimestamp = (c.tv_sec * 1000000 + c.tv_usec) * 1000) ∧
    (¬ (c.cmsg_level = SOL_SOCKET ∧ c.cmsg_type = SCM_TIMESTAMP) →
      e.marketUpdateSocketRxTimestamp = 0) := by
  obtain ⟨he, _⟩ := handleSocketEvent_pushed fuel world w q r e true hret hpush
  obtain ⟨_, _, hctrl⟩ := decryptedContext_fields world w
  have hts : e.marketUpdateSocketRxTimestamp = socketRxTimestamp c := by
    subst he
    show socketRxTimestamp (decryptedContext world w).ctrlBuf = _
    rw [hctrl, hctl]
    rfl
  constructor
  · intro hkind h1 h2 h3 h4
    rw [hts]
    exact socketRxTimestamp_timestamp c hkind.1 hkind.2 h1 h2 h3 h4
  · intro hkind
    rw [hts]
    unfold socketRxTimestamp
    rw [if_neg hkind]

theorem kernel_timestamp_composition_witness :
    (plainReadWorld.control = some
        { cmsg_level := 1, cmsg_type := 29, tv_sec := 1700000000, tv_usec := 123456 } ∧
      handleSocketEvent 1 plainReadWorld (WebSocketClientEvContext.create 7 0)
          (SPSCQueue.construct 2) = .returned
        { effects := ringEffects (WebSocketClientEvContext.create 7 0) ++
            decryptEffects plainReadWorld (WebSocketClientEvContext.create 7 0) ++
            [Effect.push (makeQueueEntry plainReadWorld
              (decryptedContext plainReadWorld (WebSocketClientEvContext.create 7 0))) true]
          context := clearedContext
            (decryptedContext plainReadWorld (WebSocketClientEvContext.create 7 0))
          queue :=
            { data_ := [makeQueueEntry plainReadWorld
                (decryptedContext plainReadWorld (WebSocketClientEvContext.create 7 0)), default]
              readIdx_ := 0, writeIdxCached_ := 0, writeIdx_ := 1, readIdxCached_ := 0 } } ∧
      ((1 : Int) = SOL_SOCKET ∧ (29 : Int) = SCM_TIMESTAMP)) ∧
    (makeQueueEntry plainReadWorld
        (decryptedContext plainReadWorld
          (WebSocketClientEvContext.create 7 0))).marketUpdateSocketRxTimestamp
      = (1700000000 * 1000000 + 123456) * 1000 :=
  ⟨⟨rfl, handleSocketEvent_publishes 0 plainReadWorld _ _ _ (by decide) rfl (by decide)
      (by decide) (by decide) (construct_two_push _), rfl, rfl⟩,
    (kernel_timestamp_composition 1 plainReadWorld (WebSocketClientEvContext.create 7 0)
      (SPSCQueue.construct 2) _ _
      { cmsg_level := 1, cmsg_type := 29, tv_sec := 1700000000, tv_usec := 123456 } rfl
      (handleSocketEvent_publishes 0 plainReadWorld _ _ _ (by decide) rfl (by decide)
        (by decide) (by decide) (construct_two_push _))
      (List.mem_append_right _ (List.mem_singleton_self _))).1 ⟨rfl, rfl⟩
      (by decide) (by decide) (by decide) (by decide)⟩

/-! ## The bootstrap -/

/-- C12 (too few CPUs). Whenever the reported CPU count is below
`CPU_CORE_INDEX_FOR_BOOK_BUILDER_GATEWAY_THREAD`, `bookBuilderGateway` returns having made
no call at all: the thread is not pinned, no ring is initialised, nothing is written to
the pipe and no connection is initiated. -/
theorem too_few_cpus_returns_first (world : GatewayWorld) (numberOfConnections : Nat)
    (hfew : world.hardware_concurrency < CPU_CORE_INDEX_FOR_BOOK_BUILDER_GATEWAY_THREAD) :
    bookBuilderGateway world numberOfConnections = .returned [] := by
  have h0 : world.hardware_concurrency = 0 := by
    unfold CPU_CORE_INDEX_FOR_BOOK_BUILDER_GATEWAY_THREAD at hfew
    omega
  unfold bookBuilderGateway
  simp [h0, intOfUnsigned]

theorem too_few_cpus_returns_first_witness :
    noCoreWorld.hardware_concurrency < CPU_CORE_INDEX_FOR_BOOK_BUILDER_GATEWAY_THREAD ∧
    bookBuilderGateway noCoreWorld 3 = .returned [] :=
  ⟨by decide, too_few_cpus_returns_first noCoreWorld 3 (by decide)⟩

/-- C18, at the failing input. On a machine that reports one core, the core-count check
is passed and the first call of `bookBuilderGateway` pins the thread to core index 1,
which is not below the core count 1. -/
theorem single_core_pins_core_one :
    singleCoreWorld.hardware_concurrency = 1 ∧
    (bookBuilderGateway singleCoreWorld 3).effects.head?
      = some (GatewayEffect.setThreadAffinity 1) ∧
    ¬ (CPU_CORE_INDEX_FOR_BOOK_BUILDER_GATEWAY_THREAD < singleCoreWorld.hardware_concurrency) := by
  decide

/-! ## The pending ciphertext of the order manager -/

/-- A block grown or shrunk by a successful `realloc` has the requested size and keeps
its leading bytes. -/
theorem realloc_spec (block : List Byte) (size : Nat) :
    ∃ block1, realloc true block size = some block1 ∧ block1.length = size ∧
      ∀ k, k ≤ size → k ≤ block.length → block1.take k = block.take k := by
  refine ⟨block.take size ++ List.replicate (size - block.length) 0, by simp [realloc], ?_, ?_⟩
  · simp only [List.length_append, List.length_take, List.length_replicate]
    omega
  · intro k hk1 hk2
    rw [List.take_append_of_le_length (by simp only [List.length_take]; omega),
      List.take_take, Nat.min_eq_left hk1]

/-- C19 (pending ciphertext). For every client whose block `writeBuffer` holds the
`writeLen` pending bytes `B`, with allocation succeeding: `queue_encrypted_bytes(buf,
len)` makes the pending bytes `B` followed by `buf[0 .. len)` and increases `writeLen` by
`len`; `do_sock_write`, when the socket write reports `n` bytes with `0 < n ≤ writeLen`,
returns 0 and leaves pending the bytes of `B` after the first `n`, with `writeLen`
decreased by `n`; and when the write reports `n ≤ 0` it returns -1 and leaves the client
as it was. -/
theorem pending_ciphertext_in_order (client : OrderManagerClient)
    (hblock : client.writeLen ≤ client.writeBuffer.length)
    (hsize : client.writeLen < SIZE_T_RANGE) :
    (∀ (buf : List Byte) (len : Nat), len ≤ buf.length →
      client.writeLen + len < SIZE_T_RANGE →
      ∃ client1, queue_encrypted_bytes true client buf len = some client1 ∧
        client1.writeLen = client.writeLen + len ∧
        client1.pending = client.pending ++ buf.take len) ∧
    (∀ n : Int, 0 < n → n ≤ client.writeLen →
      ∃ client1, do_sock_write true n client = some (0, client1) ∧
        client1.writeLen = client.writeLen - n.toNat ∧
        client1.pending = client.pending.drop n.toNat) ∧
    (∀ (reallocSucceeds : Bool) (n : Int), n ≤ 0 →
      do_sock_write reallocSucceeds n client = some (-1, client)) := by
  refine ⟨?_, ?_, ?_⟩
  · intro buf len hbuf hsum
    obtain ⟨block1, hre, hlen1, hkeep⟩ :=
      realloc_spec client.writeBuffer (client.writeLen + len)
    have hmod : (client.writeLen + len) % SIZE_T_RANGE = client.writeLen + len :=
      Nat.mod_eq_of_lt hsum
    have hcpy : memcpyAt block1 client.writeLen buf len
        = some (block1.take client.writeLen ++ buf.take len
            ++ block1.drop (client.writeLen + len)) := by
      unfold memcpyAt
      rw [if_pos ⟨hbuf, by omega⟩]
    refine ⟨{ client with
        writeBuffer := block1.take client.writeLen ++ buf.take len
          ++ block1.drop (client.writeLen + len)
        writeLen := client.writeLen + len },
      by simp only [queue_encrypted_bytes, hmod, hre, hcpy], rfl, ?_⟩
    have hdrop : block1.drop (client.writeLen + len) = [] :=
      List.drop_of_length_le (by omega)
    have htake : block1.take client.writeLen = client.writeBuffer.take client.writeLen :=
      hkeep _ (by omega) hblock
    show (block1.take client.writeLen ++ buf.take len
      ++ block1.drop (client.writeLen + len)).take (client.writeLen + len) = _
    rw [hdrop, List.append_nil, htake]
    have hl : (client.writeBuffer.take client.writeLen ++ buf.take len).length
        = client.writeLen + len := by
      simp only [List.length_append, List.length_take]; omega
    rw [List.take_of_length_le (by omega)]
    rfl
  · intro n hpos hle
    have hn : (n.toNat : Int) = n := Int.toNat_of_nonneg (by omega)
    have hnle : n.toNat ≤ client.writeLen := by omega
    have hnpos : 0 < n.toNat := by omega
    have hnmod : n.toNat % SIZE_T_RANGE = n.toNat := Nat.mod_eq_of_lt (by omega)
    have hrest : (client.writeLen + SIZE_T_RANGE - n.toNat) % SIZE_T_RANGE
        = client.writeLen - n.toNat := by
      have h1 : client.writeLen + SIZE_T_RANGE - n.toNat
          = (client.writeLen - n.toNat) + SIZE_T_RANGE := by omega
      rw [h1, Nat.add_mod_right]
      exact Nat.mod_eq_of_lt (by omega)
    rcases Nat.lt_or_ge n.toNat client.writeLen with hlt | hge
    · -- part of the pending bytes is left: they are moved to the front
      have hmove : memmoveDown client.writeBuffer n.toNat (client.writeLen - n.toNat)
          = some ((client.writeBuffer.drop n.toNat).take (client.writeLen - n.toNat)
              ++ client.writeBuffer.drop (client.writeLen - n.toNat)) := by
        unfold memmoveDown
        rw [if_pos (by omega)]
      obtain ⟨block1, hre, hlen1, hkeep⟩ :=
        realloc_spec ((client.writeBuffer.drop n.toNat).take (client.writeLen - n.toNat)
          ++ client.writeBuffer.drop (client.writeLen - n.toNat)) (client.writeLen - n.toNat)
      refine ⟨{ client with writeBuffer := block1, writeLen := client.writeLen - n.toNat },
        ?_, rfl, ?_⟩
      · unfold do_sock_write
        simp only [if_pos hpos, hnmod, if_pos hlt, hrest, hmove, hre, Option.getD_some]
      · show block1.take (client.writeLen - n.toNat)
          = (client.writeBuffer.take client.writeLen).drop n.toNat
        rw [hkeep _ (Nat.le_refl _)
            (by simp only [List.length_append, List.length_take, List.length_drop]; omega),
          List.take_append_of_le_length
            (by simp only [List.length_take, List.length_drop]; omega),
          List.take_take, Nat.min_self, List.drop_take]
    · -- everything pending was written
      have heq : n.toNat = client.writeLen := by omega
      obtain ⟨block1, hre, hlen1, _⟩ := realloc_spec client.writeBuffer 0
      have hnil : block1 = [] := List.eq_nil_of_length_eq_zero hlen1
      subst hnil
      refine ⟨{ client with writeBuffer := [], writeLen := client.writeLen - n.toNat },
        ?_, rfl, ?_⟩
      · unfold do_sock_write
        have hnot : ¬ n.toNat < client.writeLen := by omega
        have hzero : client.writeLen - n.toNat = 0 := by omega
        simp only [if_pos hpos, hnmod, if_neg hnot, hrest, hzero, hre, Option.getD_some]
      · show ([] : List Byte).take (client.writeLen - n.toNat)
          = (client.writeBuffer.take client.writeLen).drop n.toNat
        rw [List.take_nil, heq]
        exact (List.drop_of_length_le (by simp only [List.length_take]; omega)).symm
  · intro ok n hn
    unfold do_sock_write
    simp only [if_neg (not_lt.mpr hn)]

theorem pending_ciphertext_in_order_witness :
    (clientWithThree.writeLen ≤ clientWithThree.writeBuffer.length ∧
      clientWithThree.writeLen < SIZE_T_RANGE ∧
      2 ≤ [7, 8, 9, 10].length ∧ clientWithThree.writeLen + 2 < SIZE_T_RANGE ∧
      (0 : Int) < 2 ∧ (2 : Int) ≤ clientWithThree.writeLen ∧ (-1 : Int) ≤ 0) ∧
    (∃ client1, queue_encrypted_bytes true clientWithThree [7, 8, 9, 10] 2 = some client1 ∧
        client1.writeLen = clientWithThree.writeLen + 2 ∧
        client1.pending = clientWithThree.pending ++ [7, 8, 9, 10].take 2) ∧
    (∃ client1, do_sock_write true 2 clientWithThree = some (0, client1) ∧
        client1.writeLen = clientWithThree.writeLen - (2 : Int).toNat ∧
        client1.pending = clientWithThree.pending.drop (2 : Int).toNat) ∧
    do_sock_write true (-1) clientWithThree = some (-1, clientWithThree) :=
  ⟨⟨by decide, by decide, by decide, by decide, by decide, by decide, by decide⟩,
    (pending_ciphertext_in_order clientWithThree (by decide) (by decide)).1
      [7, 8, 9, 10] 2 (by decide) (by decide),
    (pending_ciphertext_in_order clientWithThree (by decide) (by decide)).2.1
      2 (by decide) (by decide),
    (pending_ciphertext_in_order clientWithThree (by decide) (by decide)).2.2
      true (-1) (by decide)⟩

/-! ## The TLS record pump -/

theorem pendingAfter_append (a b : List Effect) (pending : PendingPlaintext) :
    pendingAfter (a ++ b) pending = pendingAfter b (pendingAfter a pending) := by
  unfold pendingAfter
  rw [List.foldl_append]

/-- Calls that are not `SSL_read` leave the session's plaintext alone. -/
theorem pendingAfter_of_no_read (effects : List Effect)
    (h : ∀ x ∈ effects, x.isSslRead = false) (pending : PendingPlaintext) :
    pendingAfter effects pending = pending := by
  induction effects generalizing pending with
  | nil => rfl
  | cons x rest ih =>
    have hx := h x (List.mem_cons_self _ _)
    have hrest : ∀ y ∈ rest, y.isSslRead = false :=
      fun y hy => h y (List.mem_cons_of_mem _ hy)
    show pendingAfter rest _ = pending
    cases x <;> first | exact ih hrest pending | simp [Effect.isSslRead] at hx

/-- C14, as stated, fails. A chunk completes two TLS records, 9 8 7 and 6 5; the one
`SSL_read` of the cycle returns the first (3 bytes), the cycle pushes its entry and
returns, and the session still holds the record 6 5. -/
theorem second_record_left_in_session :
    sslReadPending twoRecords (WebSocketClientEvContext.create 7 0).decryptedReadBufferSize
      = (plainReadWorld.sslReadRet, plainReadWorld.plaintext, [[6, 5]]) ∧
    handleSocketEvent 1 plainReadWorld (WebSocketClientEvContext.create 7 0)
        (SPSCQueue.construct 2) = .returned
      { effects := ringEffects (WebSocketClientEvContext.create 7 0) ++
          decryptEffects plainReadWorld (WebSocketClientEvContext.create 7 0) ++
          [Effect.push (makeQueueEntry plainReadWorld
            (decryptedContext plainReadWorld (WebSocketClientEvContext.create 7 0))) true]
        context := clearedContext
          (decryptedContext plainReadWorld (WebSocketClientEvContext.create 7 0))
        queue :=
          { data_ := [makeQueueEntry plainReadWorld
              (decryptedContext plainReadWorld (WebSocketClientEvContext.create 7 0)), default]
            readIdx_ := 0, writeIdxCached_ := 0, writeIdx_ := 1, readIdxCached_ := 0 } } ∧
    pendingAfter
      (ringEffects (WebSocketClientEvContext.create 7 0) ++
        decryptEffects plainReadWorld (WebSocketClientEvContext.create 7 0) ++
        [Effect.push (makeQueueEntry plainReadWorld
          (decryptedContext plainReadWorld (WebSocketClientEvContext.create 7 0))) true])
      twoRecords = [[6, 5]] :=
  ⟨by decide,
    handleSocketEvent_publishes 0 plainReadWorld _ _ _ (by decide) rfl (by decide)
      (by decide) (by decide) (construct_two_push _),
    by decide⟩

/-- C14, amended. After every returned read cycle that fed a ciphertext chunk into the
input BIO, plaintext has been read out of the TLS session exactly once, by one `SSL_read`
of at most `decryptedReadBufferSize` bytes: whatever the session held beyond what that
single read hands out is still held when the cycle ends. -/
theorem one_read_per_cycle (fuel : Nat) (world : CycleWorld)
    (w : WebSocketClientEvContext) (q : SPSCQueue BookBuilderGatewayToComponentQueueEntry)
    (r : CycleResult) (pending : PendingPlaintext)
    (hread : world.revents &&& EV_READ ≠ 0) (hsqe : world.sqeAvailable = true)
    (hsub : 0 ≤ world.submitRet) (hwait : 0 ≤ world.waitRet) (hres : 0 ≤ world.cqeRes)
    (hret : handleSocketEvent fuel world w q = .returned r) :
    r.effects.filter Effect.isSslRead
      = [Effect.SSL_read w.connectionIdx w.decryptedReadBufferSize] ∧
    pendingAfter r.effects pending
      = (sslReadPending pending w.decryptedReadBufferSize).2.2 := by
  rw [handleSocketEvent_decrypt fuel world w q hread hsqe hsub hwait hres] at hret
  unfold decryptAndPublish at hret
  dsimp only at hret
  split at hret
  · rename_i pushes q1 hloop
    simp only [Outcome.returned.injEq] at hret
    subst hret
    obtain ⟨_, hall⟩ := pushUntilAccepted_returned _ _ _ _ _ hloop
    have hpushes : ∀ x ∈ pushes, x.isSslRead = false := by
      intro x hx
      rcases hall x hx with h | h <;> rw [h] <;> rfl
    constructor
    · show (ringEffects w ++ decryptEffects world w ++ pushes).filter Effect.isSslRead = _
      have hp : pushes.filter Effect.isSslRead = [] :=
        List.filter_eq_nil_iff.mpr (fun x hx => by simp [hpushes x hx])
      rw [List.filter_append, hp, List.append_nil]
      rfl
    · show pendingAfter (ringEffects w ++ decryptEffects world w ++ pushes) pending = _
      rw [pendingAfter_append, pendingAfter_of_no_read pushes hpushes, pendingAfter_append]
      rfl
  · simp at hret
  · simp at hret

theorem one_read_per_cycle_witness :
    (plainReadWorld.revents &&& EV_READ ≠ 0 ∧ plainReadWorld.sqeAvailable = true ∧
      0 ≤ plainReadWorld.submitRet ∧ 0 ≤ plainReadWorld.waitRet ∧
      0 ≤ plainReadWorld.cqeRes ∧
      handleSocketEvent 1 plainReadWorld (WebSocketClientEvContext.create 7 0)
          (SPSCQueue.construct 2) = .returned
        { effects := ringEffects (WebSocketClientEvContext.create 7 0) ++
            decryptEffects plainReadWorld (WebSocketClientEvContext.create 7 0) ++
            [Effect.push (makeQueueEntry plainReadWorld
              (decryptedContext plainReadWorld (WebSocketClientEvContext.create 7 0))) true]
          context := clearedContext
            (decryptedContext plainReadWorld (WebSocketClientEvContext.create 7 0))
          queue :=
            { data_ := [makeQueueEntry plainReadWorld
                (decryptedContext plainReadWorld (WebSocketClientEvContext.create 7 0)), default]
              readIdx_ := 0, writeIdxCached_ := 0, writeIdx_ := 1, readIdxCached_ := 0 } }) ∧
    ((ringEffects (WebSocketClientEvContext.create 7 0) ++
        decryptEffects plainReadWorld (WebSocketClientEvContext.create 7 0) ++
        [Effect.push (makeQueueEntry plainReadWorld
          (decryptedContext plainReadWorld (WebSocketClientEvContext.create 7 0))) true]).filter
        Effect.isSslRead
      = [Effect.SSL_read 0 WEBSOCKET_CLIENT_RX_BUFFER_SIZE] ∧
    pendingAfter
      (ringEffects (WebSocketClientEvContext.create 7 0) ++
        decryptEffects plainReadWorld (WebSocketClientEvContext.create 7 0) ++
        [Effect.push (makeQueueEntry plainReadWorld
          (decryptedContext plainReadWorld (WebSocketClientEvContext.create 7 0))) true])
      twoRecords
      = (sslReadPending twoRecords WEBSOCKET_CLIENT_RX_BUFFER_SIZE).2.2) :=
  ⟨⟨by decide, rfl, by decide, by decide, by decide,
      handleSocketEvent_publishes 0 plainReadWorld _ _ _ (by decide) rfl (by decide)
        (by decide) (by decide) (construct_two_push _)⟩,
    one_read_per_cycle 1 plainReadWorld (WebSocketClientEvContext.create 7 0)
      (SPSCQueue.construct 2) _ twoRecords (by decide) rfl (by decide) (by decide)
      (by decide)
      (handleSocketEvent_publishes 0 plainReadWorld _ _ _ (by decide) rfl (by decide)
        (by decide) (by decide) (construct_two_push _))⟩

/-! ## The Kraken subscription frame -/

theorem stripOutsideStrings_append (a b : List Char) :
    ∀ p : JsonPosition,
      stripOutsideStrings p (a ++ b)
        = stripOutsideStrings p a ++ stripOutsideStrings (p.after a) b := by
  induction a with
  | nil => intro p; rfl
  | cons c cs ih =>
    intro p
    simp only [List.cons_append, stripOutsideStrings, JsonPosition.after, List.foldl_cons]
    split
    · exact ih _
    · exact congrArg (List.cons c) (ih _)

theorem after_append (a b : List Char) (p : JsonPosition) :
    p.after (a ++ b) = (p.after a).after b := by
  unfold JsonPosition.after
  rw [List.foldl_append]

/-- Inside a string literal, characters other than the quote and the backslash are kept
and leave the scan inside the literal. -/
theorem inside_plain (cs : List Char)
    (h : ∀ c ∈ cs, c ≠ quoteChar ∧ c ≠ backslashChar) :
    JsonPosition.inside.after cs = .inside ∧
    stripOutsideStrings .inside cs = cs := by
  induction cs with
  | nil => exact ⟨rfl, rfl⟩
  | cons c rest ih =>
    obtain ⟨hq, hb⟩ := h c (List.mem_cons_self _ _)
    obtain ⟨ih1, ih2⟩ := ih (fun d hd => h d (List.mem_cons_of_mem _ hd))
    have hnext : JsonPosition.inside.next c = .inside := by
      simp only [JsonPosition.next, if_neg hb, if_neg hq]
    constructor
    · show (JsonPosition.inside.next c).after rest = .inside
      rw [hnext]; exact ih1
    · simp only [stripOutsideStrings, hnext, ih2]
      simp

set_option maxRecDepth 1000000 in
/-- The symbols of the four Kraken portfolios contain neither a quote nor a backslash. -/
theorem kraken_symbols_plain :
    ∀ sym ∈ currencyPairsPortfolio122 ++ currencyPairsPortfolio92 ++
        currencyPairsPortfolio50 ++ currencyPairsPortfolio3,
      ∀ c ∈ sym.toList, c ≠ quoteChar ∧ c ≠ backslashChar := by
  decide

/-- A character that is not whitespace outside a string literal is kept. -/
theorem strip_cons_keep (p : JsonPosition) (c : Char) (cs : List Char)
    (h : ¬ (p = .outside ∧ c.isWhitespace = true)) :
    stripOutsideStrings p (c :: cs) = c :: stripOutsideStrings (p.next c) cs := by
  show (if p = .outside ∧ c.isWhitespace = true then stripOutsideStrings (p.next c) cs
    else c :: stripOutsideStrings (p.next c) cs) = _
  rw [if_neg h]

/-- A quoted run of plain characters is kept, and the scan is outside again after it. -/
theorem strip_quoted (cs rest : List Char)
    (hplain : ∀ c ∈ cs, c ≠ quoteChar ∧ c ≠ backslashChar) :
    stripOutsideStrings .outside ([quoteChar] ++ (cs ++ ([quoteChar] ++ rest)))
      = quoteChar :: (cs ++ (quoteChar :: stripOutsideStrings .outside rest)) := by
  obtain ⟨hin, hkeep⟩ := inside_plain cs hplain
  have hquote_in : JsonPosition.outside.next quoteChar = .inside := by decide
  have hquote_out : JsonPosition.inside.next quoteChar = .outside := by decide
  have hq1 : ¬ (JsonPosition.outside = JsonPosition.outside ∧ quoteChar.isWhitespace = true) := by
    decide
  have hq2 : ¬ (JsonPosition.inside = JsonPosition.outside ∧ quoteChar.isWhitespace = true) := by
    decide
  show stripOutsideStrings .outside (quoteChar :: (cs ++ (quoteChar :: rest))) = _
  rw [strip_cons_keep _ _ _ hq1, hquote_in, stripOutsideStrings_append, hkeep, hin,
    strip_cons_keep _ _ _ hq2, hquote_out]

/-- The first raw string literal, stripped, is the specified text up to the opening quote
of the symbol, and the scan ends outside string literals. -/
theorem kraken_head_stripped :
    stripOutsideStrings .outside krakenSubscriptionHead.toList ++ [quoteChar]
      = "\x7b\"method\":\"subscribe\",\"params\":\x7b\"channel\":\"book\",\"depth\":10,\"snapshot\":true,\"symbol\":[\"".toList ∧
    JsonPosition.outside.after krakenSubscriptionHead.toList = .outside := by
  decide

/-- The second raw string literal, stripped, is the specified text after the closing quote
of the symbol. -/
theorem kraken_tail_stripped :
    quoteChar :: stripOutsideStrings .outside krakenSubscriptionTail.toList
      = "\"]\x7d,\"req_id\":1234567890\x7d".toList := by
  decide

/-- The Kraken frame around a symbol without quote or backslash is, once the whitespace
outside string literals is deleted, the specified JSON text. -/
theorem kraken_frame_stripped (sym : String)
    (hplain : ∀ c ∈ sym.toList, c ≠ quoteChar ∧ c ≠ backslashChar) :
    stripOutsideStrings .outside
        ((krakenSubscriptionHead ++ ("\"" ++ sym ++ "\"")) ++ krakenSubscriptionTail).toList
      = (krakenSubscribeJson sym).toList := by
  obtain ⟨hhead, hheadpos⟩ := kraken_head_stripped
  have hshape : ((krakenSubscriptionHead ++ ("\"" ++ sym ++ "\"")) ++ krakenSubscriptionTail).toList
      = krakenSubscriptionHead.toList ++
          ([quoteChar] ++ (sym.toList ++ ([quoteChar] ++ krakenSubscriptionTail.toList))) := by
    simp only [String.toList, String.data_append, List.append_assoc]
    rfl
  have hjson : (krakenSubscribeJson sym).toList
      = "\x7b\"method\":\"subscribe\",\"params\":\x7b\"channel\":\"book\",\"depth\":10,\"snapshot\":true,\"symbol\":[\"".toList
        ++ (sym.toList ++ "\"]\x7d,\"req_id\":1234567890\x7d".toList) := by
    unfold krakenSubscribeJson
    simp only [String.toList, String.data_append, List.append_assoc]
  have hmid := strip_quoted sym.toList krakenSubscriptionTail.toList hplain
  rw [hshape, stripOutsideStrings_append, hheadpos, hmid, hjson, ← hhead, kraken_tail_stripped]
  simp only [List.append_assoc, List.singleton_append]

/-- The configurations a Kraken build can select. -/
theorem connectionConfig_kraken (b : BuildFlags)
    (hnot : b.USE_BITMEX_EXCHANGE = false ∧ b.USE_BITMEX_TESTNET_EXCHANGE = false ∧
      b.USE_BITMEX_MOCK_EXCHANGE = false)
    (n : Nat) (pairs : List String) (hcfg : connectionConfig b = some (n, pairs)) :
    (n = 122 ∧ pairs = currencyPairsPortfolio122) ∨ (n = 92 ∧ pairs = currencyPairsPortfolio92) ∨
    (n = 50 ∧ pairs = currencyPairsPortfolio50) ∨ (n = 3 ∧ pairs = currencyPairsPortfolio3) := by
  unfold connectionConfig at hcfg
  simp only [hnot.1, hnot.2.1, hnot.2.2, Bool.or_self, Bool.false_eq_true, if_false] at hcfg
  split at hcfg
  · split at hcfg
    · simp only [Option.some.injEq, Prod.mk.injEq] at hcfg
      exact Or.inl ⟨hcfg.1.symm, hcfg.2.symm⟩
    · split at hcfg
      · simp only [Option.some.injEq, Prod.mk.injEq] at hcfg
        exact Or.inr (Or.inl ⟨hcfg.1.symm, hcfg.2.symm⟩)
      · split at hcfg
        · simp only [Option.some.injEq, Prod.mk.injEq] at hcfg
          exact Or.inr (Or.inr (Or.inl ⟨hcfg.1.symm, hcfg.2.symm⟩))
        · split at hcfg
          · simp only [Option.some.injEq, Prod.mk.injEq] at hcfg
            exact Or.inr (Or.inr (Or.inr ⟨hcfg.1.symm, hcfg.2.symm⟩))
          · simp at hcfg
  · simp at hcfg

/-- What holds of the Kraken frame: in a Kraken build without mock venue, for every
connection index `i` at which `currencyPairs_` has a symbol, the established callback
hands exactly one text frame to `lws_write`, and that frame is, after deleting the
whitespace outside string literals, the specified JSON text with `currencyPairs_[i]`. -/
theorem kraken_subscribe_frame_in_range (b : BuildFlags) (st : CallbackState)
    (hvenue : b.USE_KRAKEN_EXCHANGE = true)
    (hnot : b.USE_BITMEX_EXCHANGE = false ∧ b.USE_BITMEX_TESTNET_EXCHANGE = false ∧
      b.USE_BITMEX_MOCK_EXCHANGE = false)
    (hmock : b.USE_KRAKEN_MOCK_EXCHANGE = false)
    (pairs : List String) (hpairs : currencyPairs_ b = some pairs)
    (i : Nat) (sym : String) (hsym : pairs[i]? = some sym) :
    ∃ r frame,
      bookBuilderLwsCallback b st i .LWS_CALLBACK_CLIENT_ESTABLISHED = some r ∧
      r.textFrames = [frame] ∧
      stripOutsideStrings .outside frame.toList = (krakenSubscribeJson sym).toList := by
  have hcfg : ∃ n, connectionConfig b = some (n, pairs) := by
    unfold currencyPairs_ at hpairs
    cases hc : connectionConfig b with
    | none => rw [hc] at hpairs; simp at hpairs
    | some np =>
      rw [hc] at hpairs
      simp only [Option.map_some', Option.some.injEq] at hpairs
      exact ⟨np.1, by rw [← hpairs]⟩
  obtain ⟨n, hcfg⟩ := hcfg
  have hi : i < pairs.length := (List.getElem?_eq_some_iff.mp hsym).1
  have hmem : sym ∈ pairs := List.getElem?_mem hsym
  have hboth : i < n ∧ sym ∈ currencyPairsPortfolio122 ++ currencyPairsPortfolio92 ++
      currencyPairsPortfolio50 ++ currencyPairsPortfolio3 := by
    rcases connectionConfig_kraken b hnot n pairs hcfg with
      ⟨hn, hp⟩ | ⟨hn, hp⟩ | ⟨hn, hp⟩ | ⟨hn, hp⟩
    · subst hn; subst hp
      have hl : currencyPairsPortfolio122.length = 115 := rfl
      exact ⟨by omega, by simp only [List.mem_append]; exact Or.inl (Or.inl (Or.inl hmem))⟩
    · subst hn; subst hp
      have hl : currencyPairsPortfolio92.length = 85 := rfl
      exact ⟨by omega, by simp only [List.mem_append]; exact Or.inl (Or.inl (Or.inr hmem))⟩
    · subst hn; subst hp
      have hl : currencyPairsPortfolio50.length = 50 := rfl
      exact ⟨by omega, by simp only [List.mem_append]; exact Or.inl (Or.inr hmem)⟩
    · subst hn; subst hp
      have hl : currencyPairsPortfolio3.length = 3 := rfl
      exact ⟨by omega, by simp only [List.mem_append]; exact Or.inr hmem⟩
  obtain ⟨hin, hsymmem⟩ := hboth
  have hmsg : subscriptionMessage b i
      = some ((krakenSubscriptionHead ++ ("\"" ++ sym ++ "\"")) ++ krakenSubscriptionTail) := by
    unfold subscriptionMessage
    simp only [hnot.1, hnot.2.1, Bool.or_self, Bool.false_eq_true, if_false, hvenue, if_true,
      hpairs, hsym]
  refine ⟨{ state := { st with interrupted := st.interrupted.set i 1 }
            textFrames := [(krakenSubscriptionHead ++ ("\"" ++ sym ++ "\""))
              ++ krakenSubscriptionTail] }, _, ?_, rfl,
    kraken_frame_stripped sym (kraken_symbols_plain sym hsymmem)⟩
  unfold bookBuilderLwsCallback NUMBER_OF_CONNECTIONS
  rw [hcfg]
  simp only [Option.map_some', hmock, hnot.2.2, Bool.not_false, Bool.and_self, if_true, hmsg,
    if_pos hin]

/-- C11, at the failing input. In the Kraken build with `USE_PORTFOLIO_122`,
`NUMBER_OF_CONNECTIONS` is 122 while `currencyPairs_` has 115 symbols: for connection
index 115, which is below 122, `currencyPairs_[115]` is outside the vector and the
established callback builds no defined frame. -/
theorem kraken_portfolio_122_lacks_symbols :
    krakenBuild122.USE_KRAKEN_EXCHANGE = true ∧
    NUMBER_OF_CONNECTIONS krakenBuild122 = some 122 ∧
    (currencyPairs_ krakenBuild122).map List.length = some 115 ∧
    115 < 122 ∧
    (currencyPairs_ krakenBuild122).bind (fun pairs => pairs[115]?) = none ∧
    subscriptionMessage krakenBuild122 115 = none ∧
    bookBuilderLwsCallback krakenBuild122
      { clientWsis := List.replicate 122 true, interrupted := List.replicate 122 0 } 115
      .LWS_CALLBACK_CLIENT_ESTABLISHED = none := by
  decide

/-! ## The socket-rx timestamp across cycles -/

/-- On a freshly constructed queue of capacity 3 the first two pushes are accepted. -/
theorem construct_three_push {T : Type} [Inhabited T] (e1 e2 : T) :
    (SPSCQueue.construct 3 : SPSCQueue T).push e1 =
      some (true, { data_ := [e1, default, default], readIdx_ := 0, writeIdxCached_ := 0,
                    writeIdx_ := 1, readIdxCached_ := 0 }) ∧
    ({ data_ := [e1, default, default], readIdx_ := 0, writeIdxCached_ := 0,
       writeIdx_ := 1, readIdxCached_ := 0 } : SPSCQueue T).push e2 =
      some (true, { data_ := [e1, e2, default], readIdx_ := 0, writeIdxCached_ := 0,
                    writeIdx_ := 2, readIdxCached_ := 0 }) :=
  ⟨rfl, rfl⟩

/-- C9, as stated, fails. Two consecutive cycles of one connection on a queue of capacity
3. The first receives data with the kernel timestamp 1700000000 s 123456 us and pushes
its entry. The second completes with 0 bytes and no control message, at the clock
readings 400, 500, 600; `ctrlBuf` still holds the first cycle's message, and the entry the
second cycle pushes carries the first cycle's socket-rx instant beside its own poll
instant 400. -/
theorem stale_socket_rx_timestamp :
    handleSocketEvent 1 plainReadWorld (WebSocketClientEvContext.create 7 0)
        (SPSCQueue.construct 3) = .returned
      { effects := ringEffects (WebSocketClientEvContext.create 7 0) ++
          decryptEffects plainReadWorld (WebSocketClientEvContext.create 7 0) ++
          [Effect.push (makeQueueEntry plainReadWorld
            (decryptedContext plainReadWorld (WebSocketClientEvContext.create 7 0))) true]
        context := contextAfterPlainRead
        queue :=
          { data_ := [makeQueueEntry plainReadWorld
              (decryptedContext plainReadWorld (WebSocketClientEvContext.create 7 0)),
              default, default]
            readIdx_ := 0, writeIdxCached_ := 0, writeIdx_ := 1, readIdxCached_ := 0 } } ∧
    endOfStreamWorld.control = none ∧
    handleSocketEvent 1 endOfStreamWorld contextAfterPlainRead
        { data_ := [makeQueueEntry plainReadWorld
            (decryptedContext plainReadWorld (WebSocketClientEvContext.create 7 0)),
            default, default]
          readIdx_ := 0, writeIdxCached_ := 0, writeIdx_ := 1, readIdxCached_ := 0 }
      = .returned
      { effects := ringEffects contextAfterPlainRead ++
          decryptEffects endOfStreamWorld contextAfterPlainRead ++
          [Effect.push (makeQueueEntry endOfStreamWorld
            (decryptedContext endOfStreamWorld contextAfterPlainRead)) true]
        context := clearedContext (decryptedContext endOfStreamWorld contextAfterPlainRead)
        queue :=
          { data_ := [makeQueueEntry plainReadWorld
              (decryptedContext plainReadWorld (WebSocketClientEvContext.create 7 0)),
              makeQueueEntry endOfStreamWorld
                (decryptedContext endOfStreamWorld contextAfterPlainRead),
              default]
            readIdx_ := 0, writeIdxCached_ := 0, writeIdx_ := 2, readIdxCached_ := 0 } } ∧
    (makeQueueEntry plainReadWorld
      (decryptedContext plainReadWorld
        (WebSocketClientEvContext.create 7 0))).marketUpdateSocketRxTimestamp
      = 1700000000123456000 ∧
    (makeQueueEntry endOfStreamWorld
      (decryptedContext endOfStreamWorld contextAfterPlainRead)).marketUpdateSocketRxTimestamp
      = 1700000000123456000 ∧
    (makeQueueEntry endOfStreamWorld
      (decryptedContext endOfStreamWorld contextAfterPlainRead)).marketUpdatePollTimestamp
      = 400 :=
  ⟨handleSocketEvent_publishes 0 plainReadWorld _ _ _ (by decide) rfl (by decide)
      (by decide) (by decide) (construct_three_push _ default).1,
    rfl,
    handleSocketEvent_publishes 0 endOfStreamWorld _ _ _ (by decide) rfl (by decide)
      (by decide) (by decide) (construct_three_push _ _).2,
    by decide, by decide, rfl⟩

/-- C9, amended. For every returned read cycle and every entry it pushed:
`decryptedBytesRead` is the length `SSL_read` returned; the first `decryptedBytesRead`
bytes of the entry are the bytes `SSL_read` placed in `decryptedReadBuffer`; the poll,
read-completion and decryption-completion timestamps are the three clock readings of
that same cycle; and the socket-rx timestamp is the instant composed from the control
message of that same cycle's completed `recvmsg`, whenever that `recvmsg` placed one in
`ctrlBuf`. -/
theorem entry_carries_same_cycle_data (fuel : Nat) (world : CycleWorld)
    (w : WebSocketClientEvContext) (q : SPSCQueue BookBuilderGatewayToComponentQueueEntry)
    (r : CycleResult) (e : BookBuilderGatewayToComponentQueueEntry)
    (hw : w.WellFormed) (hssl : world.SslReadContract w.decryptedReadBufferSize)
    (hret : handleSocketEvent fuel world w q = .returned r)
    (hpush : Effect.push e true ∈ r.effects) :
    e.decryptedBytesRead = world.sslReadRet ∧
    e.decryptedReadBuffer.take world.sslReadRet.toNat = world.plaintext ∧
    (∀ c, world.control = some c →
      e.marketUpdateSocketRxTimestamp = socketRxTimestamp c) ∧
    e.marketUpdatePollTimestamp = world.pollNow ∧
    e.marketUpdateReadCompletionTimestamp = world.readCompletionNow ∧
    e.marketUpdateDecryptionCompletionTimestamp = world.decryptionNow := by
  obtain ⟨h1, h2, h3, h4, h5, h6⟩ :=
    entry_carries_cycle_data fuel world w q r e hw hssl hret hpush
  refine ⟨h1, h2, ?_, h4, h5, h6⟩
  intro c hc
  rw [h3, hc]
  rfl

theorem entry_carries_same_cycle_data_witness :
    ((WebSocketClientEvContext.create 7 0).WellFormed ∧
      plainReadWorld.SslReadContract (WebSocketClientEvContext.create 7 0).decryptedReadBufferSize ∧
      handleSocketEvent 1 plainReadWorld (WebSocketClientEvContext.create 7 0)
          (SPSCQueue.construct 3) = .returned
        { effects := ringEffects (WebSocketClientEvContext.create 7 0) ++
            decryptEffects plainReadWorld (WebSocketClientEvContext.create 7 0) ++
            [Effect.push (makeQueueEntry plainReadWorld
              (decryptedContext plainReadWorld (WebSocketClientEvContext.create 7 0))) true]
          context := contextAfterPlainRead
          queue :=
            { data_ := [makeQueueEntry plainReadWorld
                (decryptedContext plainReadWorld (WebSocketClientEvContext.create 7 0)),
                default, default]
              readIdx_ := 0, writeIdxCached_ := 0, writeIdx_ := 1, readIdxCached_ := 0 } } ∧
      plainReadWorld.control = some
        { cmsg_level := 1, cmsg_type := 29, tv_sec := 1700000000, tv_usec := 123456 }) ∧
    ((makeQueueEntry plainReadWorld
        (decryptedContext plainReadWorld
          (WebSocketClientEvContext.create 7 0))).decryptedBytesRead = 3 ∧
      (makeQueueEntry plainReadWorld
        (decryptedContext plainReadWorld
          (WebSocketClientEvContext.create 7 0))).decryptedReadBuffer.take 3 = [9, 8, 7] ∧
      (makeQueueEntry plainReadWorld
        (decryptedContext plainReadWorld
          (WebSocketClientEvContext.create 7 0))).marketUpdateSocketRxTimestamp
        = socketRxTimestamp
            { cmsg_level := 1, cmsg_type := 29, tv_sec := 1700000000, tv_usec := 123456 } ∧
      (makeQueueEntry plainReadWorld
        (decryptedContext plainReadWorld
          (WebSocketClientEvContext.create 7 0))).marketUpdatePollTimestamp = 100 ∧
      (makeQueueEntry plainReadWorld
        (decryptedContext plainReadWorld
          (WebSocketClientEvContext.create 7 0))).marketUpdateReadCompletionTimestamp = 200 ∧
      (makeQueueEntry plainReadWorld
        (decryptedContext plainReadWorld
          (WebSocketClientEvContext.create 7 0))).marketUpdateDecryptionCompletionTimestamp
        = 300) :=
  ⟨⟨create_wellFormed 7 0,
      ⟨fun _ => ⟨rfl, by decide⟩, fun h => absurd h (by decide)⟩,
      handleSocketEvent_publishes 0 plainReadWorld _ _ _ (by decide) rfl (by decide)
        (by decide) (by decide) (construct_three_push _ default).1,
      rfl⟩,
    (fun h => ⟨h.1, h.2.1, h.2.2.1 _ rfl, h.2.2.2⟩)
      (entry_carries_same_cycle_data 1 plainReadWorld (WebSocketClientEvContext.create 7 0)
        (SPSCQueue.construct 3) _ _ (create_wellFormed 7 0)
        ⟨fun _ => ⟨rfl, by decide⟩, fun h => absurd h (by decide)⟩
        (handleSocketEvent_publishes 0 plainReadWorld _ _ _ (by decide) rfl (by decide)
          (by decide) (by decide) (construct_three_push _ default).1)
        (List.mem_append_right _ (List.mem_singleton_self _)))⟩

end PublicHFT
